import Mathlib

/-!
# Huawei USB modem tools: AT exchange, endpoint resolution, mode switch

A shallow embedding of `huawei_at.c` and `huawei_modeswitch.c`.

* Bytes are natural numbers; a C string is the run of bytes before the first NUL.
* The USB transport is an oracle (`Transport`): every libusb call of the source is
  answered by the corresponding field, and the calls that reach the device are
  logged as `UsbOp` values.
* `size_t` subtraction wraps around `2 ^ 64` (`size_sub`), which decides what
  `response_size - 1` is at `response_size = 0`; the conversion `(int) total_read`
  wraps around `2 ^ 32` (`int_cast`). The sum `total_read + to_copy` is a plain sum:
  `to_copy` comes from an `int` and `total_read` is below the buffer size, so it cannot
  reach `2 ^ 64`.
* Stores into the `response` buffer are bounds-checked: a store outside the buffer
  makes the model return `none`.
-/

namespace Huawei

/-! ## Bytes, C strings, buffers -/

/-- One `char` / `unsigned char`. -/
abbrev Byte := Nat

/-- The C string stored at the start of a byte sequence: everything before the first NUL. -/
def cstr (mem : List Byte) : List Byte := mem.takeWhile (fun b => b != 0)

/-- Does `needle` occur in `hay` starting at some position (both already NUL-free)? -/
def occurs (needle : List Byte) : List Byte → Bool
  | [] => needle.isPrefixOf []
  | c :: cs => needle.isPrefixOf (c :: cs) || occurs needle cs

/-- The test `strstr(haystack, needle) != NULL` on NUL-terminated memory. -/
def strstr (haystack needle : List Byte) : Bool := occurs (cstr needle) (cstr haystack)

/-- The function `strlen` on NUL-terminated memory. -/
def strlen (mem : List Byte) : Nat := (cstr mem).length

/-- The bytes of a string literal. -/
def bytes (s : String) : List Byte := s.toList.map Char.toNat

/-- The marker `"\r\nOK\r\n"`. -/
def MARK_OK : List Byte := [13, 10, 79, 75, 13, 10]
/-- The marker `"\r\nERROR\r\n"`. -/
def MARK_ERROR : List Byte := [13, 10, 69, 82, 82, 79, 82, 13, 10]
/-- The marker `"\r\n+CME ERROR:"`. -/
def MARK_CME : List Byte := [13, 10, 43, 67, 77, 69, 32, 69, 82, 82, 79, 82, 58]
/-- The marker `"\r\n+CMS ERROR:"`. -/
def MARK_CMS : List Byte := [13, 10, 43, 67, 77, 83, 32, 69, 82, 82, 79, 82, 58]

/-- Subtraction `a - b` of two `size_t` values (operands below `2 ^ 64`): the
difference, wrapped around `2 ^ 64` when `b` exceeds `a` (see `size_sub_eq_mod`). -/
def size_sub (a b : Nat) : Nat := if b ≤ a then a - b else a + 2 ^ 64 - b

/-- The conversion `(int) n` of a `size_t` value to the 32-bit `int`: values up to
`INT_MAX` are kept, larger ones are reduced modulo `2 ^ 32` into
`-2 ^ 31 .. 2 ^ 31 - 1` (see `int_cast_eq_mod`). -/
def int_cast (n : Nat) : Int :=
  if n < 2 ^ 31 then (n : Int)
  else if n % 2 ^ 32 < 2 ^ 31 then ((n % 2 ^ 32 : Nat) : Int)
  else ((n % 2 ^ 32 : Nat) : Int) - 2 ^ 32

/-- The store `buf[i] = b`, refused (`none`) when `i` is outside the buffer. -/
def store (buf : List Byte) (i : Nat) (b : Byte) : Option (List Byte) :=
  if i < buf.length then some (buf.set i b) else none

/-- The call `memcpy(dst + off, src, n)`, refused (`none`) when it would leave `dst`
or `src`. -/
def memcpy (dst : List Byte) (off : Nat) (src : List Byte) (n : Nat) : Option (List Byte) :=
  if off + n ≤ dst.length ∧ n ≤ src.length then
    some (dst.take off ++ src.take n ++ dst.drop (off + n))
  else none

/-! ## libusb constants and the transport oracle

The `LIBUSB_*` values are those of `libusb.h`; the other constants are the `#define`s of
`huawei_at.c`. -/

def LIBUSB_ERROR_NOT_FOUND : Int := -5
def LIBUSB_ERROR_TIMEOUT : Int := -7
def LIBUSB_TRANSFER_TYPE_BULK : Nat := 2
def LIBUSB_REQUEST_SET_FEATURE : Nat := 0x03
def TIMEOUT_MS : Nat := 2000
def READ_TIMEOUT_MS : Nat := 500
def MAX_RESPONSE_SIZE : Nat := 4096

/-- Outcome of one inbound `libusb_bulk_transfer`: the return code `r` and the bytes
placed in `read_buf` (`transferred = data.length`, at most 511 for the 512-byte
`read_buf`, whose own terminator `read_buf[transferred] = 0` is never read back). -/
structure BulkRead where
  r : Int
  data : List Byte
deriving DecidableEq, Repr

/-- The calls that reach the device, in the order they are issued. -/
inductive UsbOp where
  | kernel_driver_active (iface : Int)
  | detach_kernel_driver (iface : Int)
  | claim_interface (iface : Int)
  | release_interface (iface : Int)
  | bulk_out (ep : Int) (data : List Byte) (timeout : Nat)
  | bulk_in (ep : Int) (length : Nat) (timeout : Nat)
  | control_transfer (bmRequestType bRequest wValue wIndex : Nat) (timeout : Nat)
  | set_configuration (configuration : Int)
  | reset_device
  | usleep (usec : Nat)
deriving DecidableEq, Repr

/-- Answers of the device to the libusb calls of one invocation. -/
structure Transport where
  /-- return code of an outbound bulk transfer, by endpoint and payload -/
  bulk_out : Int → List Byte → Int
  /-- outcome of the `n`-th inbound bulk transfer (counted from 0) -/
  bulk_in : Nat → BulkRead
  kernel_driver_active : Int → Int
  detach_kernel_driver : Int → Int
  claim_interface : Int → Int
  release_interface : Int → Int
  control_transfer : Int
  set_configuration : Int
  reset_device : Int

/-! ## `huawei_at.c`: session globals -/

/-- The globals `ep_in`, `ep_out`, `claimed_interface` (initially all `-1`). -/
structure Globals where
  ep_in : Int
  ep_out : Int
  claimed_interface : Int
deriving DecidableEq, Repr

/-- Initial value of the globals. -/
def Globals.init : Globals := ⟨-1, -1, -1⟩

/-! ## `huawei_at.c`: `send_command` -/

/-- Locals of the read loop: the `response` buffer, `total_read`, `empty_reads`. -/
structure ReadState where
  response : List Byte
  total_read : Nat
  empty_reads : Nat
deriving DecidableEq, Repr

/-- How one pass through the loop body ends. -/
inductive Flow where
  | next (st : ReadState)
  | brk (st : ReadState)
  | fault
deriving DecidableEq, Repr

/-- Result of running the read loop. -/
inductive LoopResult where
  /-- the loop was left with locals `st` after `reads` inbound transfers -/
  | done (st : ReadState) (reads : Nat)
  /-- a store outside the `response` buffer -/
  | fault
  | out_of_fuel
deriving DecidableEq, Repr

/-- The four final-response markers checked after every append. -/
def has_marker (response : List Byte) : Bool :=
  strstr response MARK_OK || strstr response MARK_ERROR ||
  strstr response MARK_CME || strstr response MARK_CMS

/-- Body of the `while` loop of `send_command` for one inbound transfer outcome. -/
def read_body (response_size : Nat) (st : ReadState) (x : BulkRead) : Flow :=
  if x.r = LIBUSB_ERROR_TIMEOUT then
    .next { st with empty_reads := st.empty_reads + 1 }
  else if x.r ≠ 0 then
    .brk st
  else if 0 < x.data.length then
    let to_copy :=
      if st.total_read + x.data.length ≥ size_sub response_size 1 then
        size_sub (size_sub response_size 1) st.total_read
      else x.data.length
    match memcpy st.response st.total_read x.data to_copy with
    | none => .fault
    | some copied =>
      let total_read := st.total_read + to_copy
      match store copied total_read 0 with
      | none => .fault
      | some response =>
        if has_marker response then
          .brk { response := response, total_read := total_read, empty_reads := st.empty_reads }
        else
          .next { response := response, total_read := total_read, empty_reads := 0 }
  else
    .next { st with empty_reads := st.empty_reads + 1 }

/-- Loop condition `total_read < response_size - 1 && empty_reads < 5`. -/
def read_cond (response_size : Nat) (st : ReadState) : Bool :=
  decide (st.total_read < size_sub response_size 1) && decide (st.empty_reads < 5)

/-- The `while` loop of `send_command`; `i` is the index of the next inbound transfer. -/
def read_loop (response_size : Nat) (bulk_in : Nat → BulkRead) :
    Nat → Nat → ReadState → LoopResult
  | 0, i, st => if read_cond response_size st then .out_of_fuel else .done st i
  | fuel + 1, i, st =>
    if read_cond response_size st then
      match read_body response_size st (bulk_in i) with
      | .next st1 => read_loop response_size bulk_in fuel (i + 1) st1
      | .brk st1 => .done st1 (i + 1)
      | .fault => .fault
    else .done st i

/-- What `send_command` leaves behind. -/
structure SendResult where
  /-- the returned `int` -/
  ret : Int
  /-- the caller's `response` buffer afterwards -/
  response : List Byte
  /-- payload of the outbound transfer -/
  sent : List Byte
  /-- number of inbound transfers issued -/
  reads : Nat
deriving DecidableEq, Repr

/-- The call `snprintf(buf, size, "%s\r", cmd)`: the string left in `buf` (at most
`size - 1` characters). -/
def snprintf_cr (size : Nat) (cmd : List Byte) : List Byte :=
  (cstr cmd ++ [13]).take (size - 1)

/-- Iterations that always suffice for the read loop. -/
def read_fuel (response_size : Nat) : Nat := 5 * size_sub response_size 1 + 1

/-- The function `send_command(cmd, response, response_size)`, with `response` the
caller's buffer. `none` is a store outside `response` (or an exhausted iteration budget,
which `read_fuel` rules out). The returned value is `(int) total_read`, which wraps
once `total_read` exceeds `INT_MAX` (`int_cast`). -/
def send_command (t : Transport) (g : Globals) (cmd response : List Byte)
    (response_size : Nat) : Option SendResult :=
  let buf := snprintf_cr 256 cmd
  if t.bulk_out g.ep_out buf ≠ 0 then
    some { ret := -1, response := response, sent := buf, reads := 0 }
  else
    match store response 0 0 with
    | none => none
    | some response0 =>
      match read_loop response_size t.bulk_in (read_fuel response_size) 0
          { response := response0, total_read := 0, empty_reads := 0 } with
      | .done st reads =>
        some { ret := int_cast st.total_read, response := st.response, sent := buf,
               reads := reads }
      | .fault => none
      | .out_of_fuel => none

/-! ## USB descriptors -/

/-- The `struct libusb_endpoint_descriptor` (the fields the tools read, both `uint8_t`). -/
structure libusb_endpoint_descriptor where
  bEndpointAddress : Nat
  bmAttributes : Nat
deriving DecidableEq, Repr

/-- The `struct libusb_interface_descriptor`: one alt-setting; `endpoint` has
`bNumEndpoints` entries. -/
structure libusb_interface_descriptor where
  bInterfaceNumber : Nat
  bInterfaceClass : Nat
  endpoint : List libusb_endpoint_descriptor
deriving DecidableEq, Repr

/-- The `struct libusb_interface`: `altsetting` has `num_altsetting` entries. -/
structure libusb_interface where
  altsetting : List libusb_interface_descriptor
deriving DecidableEq, Repr

/-- The `struct libusb_config_descriptor`: `interface` has `bNumInterfaces` entries. -/
structure libusb_config_descriptor where
  interface : List libusb_interface
deriving DecidableEq, Repr

/-- A device as seen through `libusb_get_active_config_descriptor`: the return code
and, when that is not negative, the descriptor it hands out. -/
structure libusb_device where
  config_r : Int
  config : libusb_config_descriptor
deriving DecidableEq, Repr

/-! ## `huawei_at.c`: `find_endpoints` -/

/-- The `k` loop of `find_endpoints`: runs over the endpoints of one alt-setting and
updates `(found_in, found_out)`. -/
def scan_endpoints : List libusb_endpoint_descriptor → Int × Int → Int × Int
  | [], found => found
  | ep :: rest, (found_in, found_out) =>
    if ep.bmAttributes &&& 0x03 = LIBUSB_TRANSFER_TYPE_BULK then
      if ep.bEndpointAddress &&& 0x80 ≠ 0 then
        scan_endpoints rest ((ep.bEndpointAddress : Int), found_out)
      else
        scan_endpoints rest (found_in, (ep.bEndpointAddress : Int))
    else
      scan_endpoints rest (found_in, found_out)

/-- First pass, `j` loop: the alt-settings of one interface; `some` is the early
`return 0` with the globals it assigned. -/
def first_pass_settings : List libusb_interface_descriptor → Option Globals
  | [] => none
  | setting :: rest =>
    if setting.bInterfaceClass ≠ 0x0A ∧ setting.bInterfaceClass ≠ 0xFF ∧
        setting.bInterfaceClass ≠ 0x02 then
      first_pass_settings rest
    else
      let found := scan_endpoints setting.endpoint (-1, -1)
      if found.1 ≥ 0 ∧ found.2 ≥ 0 then
        some { ep_in := found.1, ep_out := found.2,
               claimed_interface := (setting.bInterfaceNumber : Int) }
      else
        first_pass_settings rest

/-- First pass, `i` loop over the interfaces. -/
def first_pass : List libusb_interface → Option Globals
  | [] => none
  | iface :: rest =>
    match first_pass_settings iface.altsetting with
    | some g => some g
    | none => first_pass rest

/-- Second pass, `j` loop: the alt-settings of one interface, updating the globals. -/
def second_pass_settings : List libusb_interface_descriptor → Globals → Globals
  | [], g => g
  | setting :: rest, g =>
    let found := scan_endpoints setting.endpoint (-1, -1)
    if found.1 ≥ 0 ∧ found.2 ≥ 0 ∧ g.ep_in < 0 then
      second_pass_settings rest
        { ep_in := found.1, ep_out := found.2,
          claimed_interface := (setting.bInterfaceNumber : Int) }
    else
      second_pass_settings rest g

/-- Second pass, `i` loop over the interfaces. -/
def second_pass : List libusb_interface → Globals → Globals
  | [], g => g
  | iface :: rest, g => second_pass rest (second_pass_settings iface.altsetting g)

/-- The function `find_endpoints(dev)`: the returned `int` and the globals afterwards. -/
def find_endpoints (dev : libusb_device) (g : Globals) : Int × Globals :=
  if dev.config_r < 0 then (dev.config_r, g)
  else
    match first_pass dev.config.interface with
    | some g1 => (0, g1)
    | none =>
      let g2 := second_pass dev.config.interface g
      (if g2.ep_in ≥ 0 ∧ g2.ep_out ≥ 0 then 0 else -1, g2)

/-! ## `huawei_modeswitch.c` -/

def huawei_switch_msg : List Byte :=
  [0x55, 0x53, 0x42, 0x43, 0x12, 0x34, 0x56, 0x78, 0x00, 0x00, 0x00, 0x00, 0x00, 0x00, 0x11,
   0x11, 0x06, 0x20, 0x00, 0x00, 0x01, 0x00, 0x00,
   0x00, 0x00, 0x00, 0x00, 0x00, 0x00, 0x00, 0x00]

def huawei_switch_msg2 : List Byte :=
  [0x55, 0x53, 0x42, 0x43, 0x12, 0x34, 0x56, 0x79, 0x00, 0x00, 0x00, 0x00, 0x00, 0x00, 0x11,
   0x11, 0x06, 0x00, 0x00, 0x00, 0x00, 0x00, 0x00,
   0x01, 0x00, 0x00, 0x00, 0x00, 0x00, 0x00, 0x00]

def eject_msg : List Byte :=
  [0x55, 0x53, 0x42, 0x43, 0x12, 0x34, 0x56, 0x7A, 0x00, 0x00, 0x00, 0x00, 0x00, 0x00, 0x06,
   0x1b, 0x00, 0x00, 0x00, 0x02, 0x00,
   0x00, 0x00, 0x00, 0x00, 0x00, 0x00, 0x00, 0x00, 0x00, 0x00]

/-- The `k` loop of `find_bulk_out_endpoint`: stops (`break`) at the first bulk OUT
endpoint; the pair is `(ep_out, *out_interface)`. -/
def scan_bulk_out (bInterfaceNumber : Nat) :
    List libusb_endpoint_descriptor → Int × Int → Int × Int
  | [], s => s
  | ep :: rest, s =>
    if ep.bmAttributes &&& 0x03 = LIBUSB_TRANSFER_TYPE_BULK then
      if ¬ (ep.bEndpointAddress &&& 0x80 ≠ 0) then
        ((ep.bEndpointAddress : Int), (bInterfaceNumber : Int))
      else scan_bulk_out bInterfaceNumber rest s
    else scan_bulk_out bInterfaceNumber rest s

/-- The `j` loop of `find_bulk_out_endpoint` (condition `... && ep_out < 0`);
`mass_storage_only` selects the first loop nest (class `0x08` only). -/
def bulk_out_settings (mass_storage_only : Bool) :
    List libusb_interface_descriptor → Int × Int → Int × Int
  | [], s => s
  | setting :: rest, s =>
    if s.1 < 0 then
      if mass_storage_only = false ∨ setting.bInterfaceClass = 0x08 then
        bulk_out_settings mass_storage_only rest
          (scan_bulk_out setting.bInterfaceNumber setting.endpoint s)
      else bulk_out_settings mass_storage_only rest s
    else s

/-- The `i` loop of `find_bulk_out_endpoint` (condition `... && ep_out < 0`). -/
def bulk_out_interfaces (mass_storage_only : Bool) :
    List libusb_interface → Int × Int → Int × Int
  | [], s => s
  | iface :: rest, s =>
    if s.1 < 0 then
      bulk_out_interfaces mass_storage_only rest
        (bulk_out_settings mass_storage_only iface.altsetting s)
    else s

/-- The function `find_bulk_out_endpoint(dev, &interface)`: the returned `int` and `*out_interface`
afterwards (`out_interface` is its value before the call). -/
def find_bulk_out_endpoint (dev : libusb_device) (out_interface : Int) : Int × Int :=
  if dev.config_r < 0 then (-1, out_interface)
  else
    let s1 := bulk_out_interfaces true dev.config.interface (-1, 0)
    if s1.1 < 0 then bulk_out_interfaces false dev.config.interface s1
    else s1

/-- The function `try_bulk_transfer`: the returned `int` and the transfer it issued. -/
def try_bulk_transfer (t : Transport) (ep_out : Int) (msg : List Byte) : Int × List UsbOp :=
  let r := t.bulk_out ep_out msg
  (if r = 0 then 0 else -1, [UsbOp.bulk_out ep_out msg 2000])

/-- The function `try_control_transfer`: the returned `int` and the three requests it
issued (their results are only printed, except that a reset answering
`LIBUSB_ERROR_NOT_FOUND` makes the function return 1). -/
def try_control_transfer (t : Transport) : Int × List UsbOp :=
  let ops := [UsbOp.control_transfer 0x00 LIBUSB_REQUEST_SET_FEATURE 0x0001 0x0000 1000,
              UsbOp.set_configuration 1,
              UsbOp.reset_device]
  if t.reset_device = LIBUSB_ERROR_NOT_FOUND then (1, ops) else (0, ops)

/-- The loop `for (i = 0; i < 8; i++)` that detaches active kernel drivers;
`n` interfaces remain, starting at index `i`. -/
def detach_kernel_drivers (t : Transport) : Nat → Int → List UsbOp
  | 0, _ => []
  | n + 1, i =>
    (if t.kernel_driver_active i = 1 then
      [UsbOp.kernel_driver_active i, UsbOp.detach_kernel_driver i]
    else [UsbOp.kernel_driver_active i]) ++ detach_kernel_drivers t n (i + 1)

/-- The loop over `endpoints[] = {0x01, 0x02, 0x03, 0x04, 0x05}` with its `break`. -/
def probe_common_endpoints (t : Transport) : List Int → List UsbOp
  | [] => []
  | ep :: rest =>
    UsbOp.bulk_out ep huawei_switch_msg 1000 ::
      (if t.bulk_out ep huawei_switch_msg = 0 then [] else probe_common_endpoints t rest)

/-- The function `switch_device(ctx, handle, pid)`: the returned `int` and the device
calls in the order issued (printing is left out). `none`: the unchecked
`libusb_get_active_config_descriptor` before the descriptor dump failed, so `config` is
read uninitialised. -/
def switch_device (t : Transport) (dev : libusb_device) : Option (Int × List UsbOp) :=
  if dev.config_r < 0 then none
  else
    let found := find_bulk_out_endpoint dev 0
    let ep_out := found.1
    let interface_num := found.2
    let detach := detach_kernel_drivers t 8 0
    let r := t.claim_interface interface_num
    let claimed : List UsbOp :=
      if r < 0 then []
      else
        (if ep_out ≥ 0 then
          (try_bulk_transfer t ep_out huawei_switch_msg).2 ++ [UsbOp.usleep 500000] ++
          (try_bulk_transfer t ep_out huawei_switch_msg2).2 ++ [UsbOp.usleep 500000] ++
          (try_bulk_transfer t ep_out eject_msg).2
        else
          probe_common_endpoints t [0x01, 0x02, 0x03, 0x04, 0x05]) ++
        [UsbOp.release_interface interface_num]
    let ctl := try_control_transfer t
    some (ctl.1, detach ++ [UsbOp.claim_interface interface_num] ++ claimed ++ ctl.2)

/-! ## Proof-side views of the read loop -/

/-- The bytes handed over by the first `n` inbound transfers: the data of those that
returned `0`, in order. -/
def stream (bulk_in : Nat → BulkRead) : Nat → List Byte
  | 0 => []
  | n + 1 => stream bulk_in n ++ (if (bulk_in n).r = 0 then (bulk_in n).data else [])

/-- Is the outcome a timeout or a zero-length read (the two cases that count as an
empty read)? -/
def is_empty_read (x : BulkRead) : Bool :=
  decide (x.r = LIBUSB_ERROR_TIMEOUT) || (decide (x.r = 0) && decide (x.data.length = 0))

/-- Is the outcome a transport error other than a timeout? -/
def is_error_read (x : BulkRead) : Bool :=
  decide (x.r ≠ LIBUSB_ERROR_TIMEOUT) && decide (x.r ≠ 0)

/-- The loop body seen on the accumulated text alone: `(break?, text, empty_reads)`. -/
def abs_body (cap : Nat) (acc : List Byte) (e : Nat) (x : BulkRead) : Bool × List Byte × Nat :=
  if x.r = LIBUSB_ERROR_TIMEOUT then (false, acc, e + 1)
  else if x.r ≠ 0 then (true, acc, e)
  else if 0 < x.data.length then
    if has_marker (acc ++ x.data.take (cap - acc.length)) then
      (true, acc ++ x.data.take (cap - acc.length), e)
    else (false, acc ++ x.data.take (cap - acc.length), 0)
  else (false, acc, e + 1)

/-- The read loop seen on the accumulated text alone: final text, `empty_reads` and
number of inbound transfers. -/
def abs_loop (cap : Nat) (bulk_in : Nat → BulkRead) :
    Nat → Nat → List Byte → Nat → Option (List Byte × Nat × Nat)
  | 0, i, acc, e => if acc.length < cap ∧ e < 5 then none else some (acc, e, i)
  | fuel + 1, i, acc, e =>
    if acc.length < cap ∧ e < 5 then
      if (abs_body cap acc e (bulk_in i)).1 then
        some ((abs_body cap acc e (bulk_in i)).2.1, (abs_body cap acc e (bulk_in i)).2.2, i + 1)
      else
        abs_loop cap bulk_in fuel (i + 1) (abs_body cap acc e (bulk_in i)).2.1
          (abs_body cap acc e (bulk_in i)).2.2
    else some (acc, e, i)

/-- A transport that accepts every outbound transfer and answers the inbound
transfers from a list, timing out once the list is used up. -/
def scripted (reads : List BulkRead) : Transport :=
  { bulk_out := fun _ _ => 0
    bulk_in := fun i => reads.getD i ⟨LIBUSB_ERROR_TIMEOUT, []⟩
    kernel_driver_active := fun _ => 0
    detach_kernel_driver := fun _ => 0
    claim_interface := fun _ => 0
    release_interface := fun _ => 0
    control_transfer := 0
    set_configuration := 0
    reset_device := 0 }

/-! ## Sample inputs -/

/-- Five timeouts, then a read that delivers `"\r\nOK\r\n"`. -/
def five_timeouts_then_ok : List BulkRead :=
  [⟨LIBUSB_ERROR_TIMEOUT, []⟩, ⟨LIBUSB_ERROR_TIMEOUT, []⟩, ⟨LIBUSB_ERROR_TIMEOUT, []⟩,
   ⟨LIBUSB_ERROR_TIMEOUT, []⟩, ⟨LIBUSB_ERROR_TIMEOUT, []⟩, ⟨0, MARK_OK⟩]

/-- Two timeouts, the echo, one timeout, then the final `"\r\nOK\r\n"` line. -/
def echo_then_ok : List BulkRead :=
  [⟨LIBUSB_ERROR_TIMEOUT, []⟩, ⟨LIBUSB_ERROR_TIMEOUT, []⟩, ⟨0, bytes "AT\r"⟩,
   ⟨LIBUSB_ERROR_TIMEOUT, []⟩, ⟨0, MARK_OK⟩, ⟨0, bytes "late"⟩]

/-- A modem in storage-plus-modem layout: interface 0 is mass storage (class `0x08`)
with bulk endpoints `0x81`/`0x01`; interface 1 is vendor specific (class `0xFF`) with
an interrupt endpoint `0x82` and bulk endpoints `0x83`/`0x02`. -/
def sample_device : libusb_device :=
  { config_r := 0
    config :=
      { interface :=
          [ { altsetting :=
                [ { bInterfaceNumber := 0, bInterfaceClass := 0x08,
                    endpoint := [⟨0x81, 0x02⟩, ⟨0x01, 0x02⟩] } ] },
            { altsetting :=
                [ { bInterfaceNumber := 1, bInterfaceClass := 0xFF,
                    endpoint := [⟨0x82, 0x03⟩, ⟨0x83, 0x02⟩, ⟨0x02, 0x02⟩] } ] } ] } }

/-- A device whose only interface is mass storage with bulk endpoints `0x81`/`0x01`. -/
def storage_device : libusb_device :=
  { config_r := 0
    config :=
      { interface :=
          [ { altsetting :=
                [ { bInterfaceNumber := 0, bInterfaceClass := 0x08,
                    endpoint := [⟨0x81, 0x02⟩, ⟨0x01, 0x02⟩] } ] } ] } }

/-- A HID-like device: one interface of class `0x03` with a single interrupt endpoint. -/
def no_bulk_device : libusb_device :=
  { config_r := 0
    config :=
      { interface :=
          [ { altsetting :=
                [ { bInterfaceNumber := 0, bInterfaceClass := 0x03,
                    endpoint := [⟨0x81, 0x03⟩] } ] } ] } }

/-- A device in unconfigured state: `libusb_get_active_config_descriptor` returns
`LIBUSB_ERROR_NOT_FOUND` and hands over no descriptor. -/
def unconfigured_device : libusb_device :=
  { config_r := LIBUSB_ERROR_NOT_FOUND
    config := { interface := [] } }

/-- A transport on which the interface claim succeeds and, of the conventional
endpoint addresses, only `0x03` accepts an outbound transfer. -/
def accepts_on_three : Transport :=
  { bulk_out := fun ep _ => if ep = 0x03 then 0 else -1
    bulk_in := fun _ => ⟨LIBUSB_ERROR_TIMEOUT, []⟩
    kernel_driver_active := fun i => if i = 0 then 1 else 0
    detach_kernel_driver := fun _ => 0
    claim_interface := fun _ => 0
    release_interface := fun _ => 0
    control_transfer := 0
    set_configuration := 0
    reset_device := LIBUSB_ERROR_NOT_FOUND }

/-- A transport on which every call fails (`-1`). -/
def failing_transport : Transport :=
  { bulk_out := fun _ _ => -1
    bulk_in := fun _ => ⟨-1, []⟩
    kernel_driver_active := fun _ => -1
    detach_kernel_driver := fun _ => -1
    claim_interface := fun _ => -1
    release_interface := fun _ => -1
    control_transfer := -1
    set_configuration := -1
    reset_device := -1 }

/-- A device whose single vendor-specific alt-setting has two bulk pairs, in the order
`0x81` (IN), `0x01` (OUT), `0x82` (IN), `0x02` (OUT). -/
def two_pair_device : libusb_device :=
  { config_r := 0
    config :=
      { interface :=
          [ { altsetting :=
                [ { bInterfaceNumber := 0, bInterfaceClass := 0xFF,
                    endpoint := [⟨0x81, 0x02⟩, ⟨0x01, 0x02⟩, ⟨0x82, 0x02⟩, ⟨0x02, 0x02⟩] } ] } ] } }

/-- A command of 255 letters `A`: one more than fits `buf` together with the `'\r'`. -/
def long_command : List Byte := List.replicate 255 65

/-! ## Descriptor vocabulary used by the statements -/

/-- A bulk endpoint with the direction bit `0x80` set (device to host). -/
def is_bulk_in (ep : libusb_endpoint_descriptor) : Bool :=
  decide (ep.bmAttributes &&& 0x03 = LIBUSB_TRANSFER_TYPE_BULK) &&
    decide (ep.bEndpointAddress &&& 0x80 ≠ 0)

/-- A bulk endpoint with the direction bit `0x80` clear (host to device). -/
def is_bulk_out (ep : libusb_endpoint_descriptor) : Bool :=
  decide (ep.bmAttributes &&& 0x03 = LIBUSB_TRANSFER_TYPE_BULK) &&
    decide (ep.bEndpointAddress &&& 0x80 = 0)

/-- The alt-setting has both a bulk IN and a bulk OUT endpoint. -/
def has_bulk_pair (s : libusb_interface_descriptor) : Bool :=
  s.endpoint.any is_bulk_in && s.endpoint.any is_bulk_out

/-- Interface class `0x02`, `0x0A` or `0xFF`. -/
def preferred_class (s : libusb_interface_descriptor) : Bool :=
  decide (s.bInterfaceClass = 0x02) || decide (s.bInterfaceClass = 0x0A) ||
    decide (s.bInterfaceClass = 0xFF)

/-- All alt-settings of a configuration in descriptor order (interface by interface). -/
def all_settings (config : libusb_config_descriptor) : List libusb_interface_descriptor :=
  (config.interface.map (fun iface => iface.altsetting)).flatten

/-- The globals `find_endpoints` assigns when it settles on alt-setting `s`. -/
def resolved_to (s : libusb_interface_descriptor) : Globals :=
  { ep_in := (scan_endpoints s.endpoint (-1, -1)).1
    ep_out := (scan_endpoints s.endpoint (-1, -1)).2
    claimed_interface := (s.bInterfaceNumber : Int) }

/-! ## Trace vocabulary used by the statements -/

/-- The three control-level operations of `try_control_transfer`. -/
def is_control_op : UsbOp → Bool
  | .control_transfer _ _ _ _ _ => true
  | .set_configuration _ => true
  | .reset_device => true
  | _ => false

/-- An outbound bulk transfer. -/
def is_bulk_out_op : UsbOp → Bool
  | .bulk_out _ _ _ => true
  | _ => false

/-! ## Response vocabulary used by the statements -/

/-- The array `supported_pids` of `huawei_at.c`, terminator included. -/
def supported_pids : List Nat :=
  [0x1001, 0x1003, 0x140c, 0x1406, 0x1436, 0x1465, 0x14AC, 0x14C6, 0x14C9, 0x1c05, 0x1c07,
   0x1c1b,
   0x1506, 0x14db, 0x14fe, 0x15ca, 0x1f01,
   0x1442, 0x14dc, 0x155e, 0x157f, 0x1592,
   0x1505, 0x1520, 0x1521, 0x1575, 0x15c1,
   0x1f1e,
   0x1404, 0x1411, 0x141b, 0x1446, 0x1464, 0x14ba, 0x14d1, 0x1c0b, 0x1da1,
   0]

/-- The array `zerocd_pids` of `huawei_modeswitch.c`, terminator included. -/
def zerocd_pids : List Nat :=
  [0x1446, 0x14fe, 0x1520, 0x1505, 0x14D1, 0x1c0b,
   0x1f01, 0x1da1, 0x1f1e, 0x15ca,
   0x1521, 0x1575, 0x157c, 0x157d, 0x1582, 0x1583, 0x1588, 0x15b6, 0x1c1b,
   0]

/-- The array `modem_pids` of `huawei_modeswitch.c`, terminator included. -/
def modem_pids : List Nat :=
  [0x1001, 0x1003, 0x140c, 0x1406, 0x1436, 0x1465, 0x14AC, 0x14C6, 0x14C9, 0x1c05, 0x1c07,
   0x1506, 0x14db,
   0x1442, 0x14dc, 0x155e, 0x157f, 0x1592, 0x15c1, 0x1573, 0x1576,
   0x1404, 0x1411, 0x141b, 0x1464, 0x14ba,
   0]

/-- The loop `for (i = 0; table[i] != 0; i++) if (table[i] == pid) return 1; return 0;`
shared by `is_zerocd_pid` and `is_modem_pid`. -/
def pid_loop : List Nat → Nat → Int
  | [], _ => 0
  | x :: rest, pid => if x ≠ 0 then (if x = pid then 1 else pid_loop rest pid) else 0

/-- The function `is_zerocd_pid`. -/
def is_zerocd_pid (pid : Nat) : Int := pid_loop zerocd_pids pid

/-- The function `is_modem_pid`. -/
def is_modem_pid (pid : Nat) : Int := pid_loop modem_pids pid

/-- The function `get_pid_name` of `huawei_modeswitch.c`. -/
def get_pid_name (pid : Nat) : String :=
  if pid = 0x1446 then "E1550/E1756/E173 ZeroCD"
  else if pid = 0x14FE then "E303/E3131 Intermediate"
  else if pid = 0x1f01 then "E3131/E3372/E8372 ZeroCD"
  else if pid = 0x1520 then "K3765 ZeroCD"
  else if pid = 0x1505 then "E3131/E398 ZeroCD"
  else if pid = 0x14D1 then "E173 ZeroCD"
  else if pid = 0x1c0b then "E3531 ZeroCD"
  else if pid = 0x1da1 then "E3372 ZeroCD"
  else if pid = 0x1f1e then "K5160 ZeroCD"
  else if pid = 0x15ca then "E3131h-2 ZeroCD"
  else if pid = 0x1521 then "K4505 ZeroCD"
  else if pid = 0x1575 then "K5150 ZeroCD"
  else if pid = 0x157c then "E3276 ZeroCD"
  else if pid = 0x157d then "E3276 ZeroCD Alt"
  else if pid = 0x1582 then "E8278 ZeroCD"
  else if pid = 0x1583 then "E8278 ZeroCD Alt"
  else if pid = 0x1588 then "E3372 Variant ZeroCD"
  else if pid = 0x15b6 then "E3331 ZeroCD"
  else if pid = 0x1001 then "E169/E620/E800/E1550 Modem"
  else if pid = 0x1003 then "E1550 Modem"
  else if pid = 0x140c then "E180/E1550 Modem"
  else if pid = 0x1406 then "E1750 Modem"
  else if pid = 0x1436 then "E173/E1750 Modem"
  else if pid = 0x1465 then "K3765 Modem"
  else if pid = 0x14AC then "E1820 Modem"
  else if pid = 0x14C6 then "K4605 Modem"
  else if pid = 0x14C9 then "K4505 Modem"
  else if pid = 0x1c05 then "E173 Modem"
  else if pid = 0x1c07 then "E173s Modem"
  else if pid = 0x1c1b then "E3531 Modem"
  else if pid = 0x1506 then "E303/E3131/MS2372 Modem"
  else if pid = 0x14db then "E3131/E353 HiLink"
  else if pid = 0x1442 then "E3372 Stick"
  else if pid = 0x14dc then "E3372/E8372 HiLink"
  else if pid = 0x155e then "E8372 NCM"
  else if pid = 0x157f then "E8372 Alt"
  else if pid = 0x1592 then "E8372h"
  else if pid = 0x15c1 then "ME906s LTE"
  else if pid = 0x1573 then "K5150 Modem"
  else if pid = 0x1576 then "K5160 Modem"
  else if pid = 0x1404 then "E1752 Modem"
  else if pid = 0x1411 then "E510 Modem"
  else if pid = 0x141b then "E1752 Alt"
  else if pid = 0x1464 then "K4510/K4511 Modem"
  else if pid = 0x14ba then "E173 Alt"
  else "Unknown Huawei"

/-- The `mode` string `scan_huawei_devices` of `huawei_modeswitch.c` prints for a Huawei
device with product identifier `pid`. -/
def device_mode (pid : Nat) : String :=
  if is_zerocd_pid pid ≠ 0 then " [ZeroCD/Storage]"
  else if is_modem_pid pid ≠ 0 then " [Modem Mode]"
  else ""

/-- The entries of a zero-terminated table: everything before the first 0. -/
def entries (table : List Nat) : List Nat := table.takeWhile (fun x => x != 0)

/-! ## `huawei_at.c`: `find_huawei_modem` and `main` -/

/-- What the process of `huawei_at` finds around it. -/
structure Host where
  /-- the libc call `strtol(s, NULL, 16)` -/
  strtol16 : List Byte → Int
  /-- return code of `libusb_init` -/
  init_r : Int
  /-- the call `libusb_open_device_with_vid_pid(ctx, 0x12D1, pid)`: the device behind the
  handle, `none` for `NULL` -/
  open_device : Nat → Option libusb_device
  /-- answers of the opened device -/
  transport : Transport
  /-- initial contents of the local array `response[MAX_RESPONSE_SIZE]` -/
  response : List Byte

/-- The loop of `find_huawei_modem` over `supported_pids` (stops at the terminator). -/
def open_first (open_device : Nat → Option libusb_device) :
    List Nat → Option (Nat × libusb_device)
  | [] => none
  | pid :: rest =>
    if pid ≠ 0 then
      match open_device pid with
      | some dev => some (pid, dev)
      | none => open_first open_device rest
    else none

/-- The function `find_huawei_modem(ctx, force_pid, &found_pid)`: `found_pid` and the
device behind the returned handle, `none` for `NULL`. -/
def find_huawei_modem (h : Host) (force_pid : Nat) : Option (Nat × libusb_device) :=
  if force_pid ≠ 0 then
    match h.open_device force_pid with
    | some dev => some (force_pid, dev)
    | none => none
  else open_first h.open_device supported_pids

/-- The option variables of `main`. -/
structure Args where
  raw_mode : Bool
  verbose : Bool
  list_only : Bool
  force_pid : Nat
  command : Option (List Byte)
deriving DecidableEq, Repr

/-- The values the option variables of `main` start with. -/
def Args.init : Args :=
  { raw_mode := false, verbose := false, list_only := false, force_pid := 0, command := none }

/-- The argument loop of `main` over `argv[1..]`; `none` is the `print_usage; return 1`
of an unknown option. -/
def parse_args (strtol16 : List Byte → Int) : List (List Byte) → Args → Option Args
  | [], a => some a
  | arg :: rest, a =>
    if cstr arg = bytes "-r" then parse_args strtol16 rest { a with raw_mode := true }
    else if cstr arg = bytes "-v" then parse_args strtol16 rest { a with verbose := true }
    else if cstr arg = bytes "-l" then parse_args strtol16 rest { a with list_only := true }
    else
      match rest with
      | value :: rest1 =>
        if cstr arg = bytes "-p" then
          parse_args strtol16 rest1 { a with force_pid := (strtol16 value % 65536).toNat }
        else if arg.headD 0 ≠ 45 then some { a with command := some arg }
        else none
      | [] =>
        if arg.headD 0 ≠ 45 then some { a with command := some arg }
        else none

/-- What `main` itself writes to `stderr`. -/
inductive Msg where
  | usage
  | init_failed
  | device_not_found (pid : Nat)
  | no_supported_modem
  | device_list
  | using_device (pid : Nat)
  | no_endpoints
  | endpoints (g : Globals)
  | claim_warning (iface : Int) (r : Int)
  | no_response
deriving DecidableEq, Repr

/-- What one run of `main` produces. -/
structure MainResult where
  /-- the exit status -/
  status : Int
  /-- the bytes written to `stdout` -/
  stdout : List Byte
  /-- the messages written to `stderr` by `main` -/
  stderr : List Msg
deriving DecidableEq, Repr

/-- Offset of the first occurrence of `needle` in `hay` (both NUL-free): the pointer
`strstr` returns, `none` for `NULL`. -/
def occurs_at (needle : List Byte) : List Byte → Option Nat
  | [] => if needle.isPrefixOf [] then some 0 else none
  | c :: cs =>
    if needle.isPrefixOf (c :: cs) then some 0
    else (occurs_at needle cs).map (fun k => k + 1)

/-- The non-raw output of `main`: the response with a leading echo line skipped when
`"\r\n"` is found within `strlen(command) + 2` bytes, and a newline added when the text
is not empty and does not end in one. -/
def cleaned_output (command response : List Byte) : List Byte :=
  let text := cstr response
  let p :=
    match occurs_at [13, 10] text with
    | some k => if k ≤ strlen command + 2 then text.drop (k + 2) else text
    | none => text
  if 0 < p.length ∧ p.getLast? ≠ some 10 then p ++ [10] else p

/-- The function `main` of `huawei_at.c` on `argv`. The kernel-driver detach loop and
the release/close/exit calls have no effect on the result and are left out; `none` is a
store outside `response` or a `NULL` command. -/
def main (h : Host) (argv : List (List Byte)) : Option MainResult :=
  match parse_args h.strtol16 argv.tail Args.init with
  | none => some { status := 1, stdout := [], stderr := [Msg.usage] }
  | some a =>
    if a.list_only = false ∧ a.command = none then
      some { status := 1, stdout := [], stderr := [Msg.usage] }
    else if h.init_r < 0 then
      some { status := 1, stdout := [], stderr := [Msg.init_failed] }
    else if a.list_only = true then
      some { status := 0, stdout := [], stderr := [Msg.device_list] }
    else
      match find_huawei_modem h a.force_pid with
      | none =>
        some { status := 1, stdout := [],
               stderr := [if a.force_pid ≠ 0 then Msg.device_not_found a.force_pid
                          else Msg.no_supported_modem, Msg.device_list] }
      | some (found_pid, dev) =>
        let using_msg := if a.verbose = true then [Msg.using_device found_pid] else []
        let found := find_endpoints dev Globals.init
        if found.1 < 0 then
          some { status := 1, stdout := [], stderr := using_msg ++ [Msg.no_endpoints] }
        else
          let g := found.2
          let endpoints_msg := if a.verbose = true then [Msg.endpoints g] else []
          let r := h.transport.claim_interface g.claimed_interface
          let claim_msg :=
            if r < 0 ∧ a.verbose = true then [Msg.claim_warning g.claimed_interface r] else []
          match a.command with
          | none => none
          | some command =>
            match send_command h.transport g command h.response MAX_RESPONSE_SIZE with
            | none => none
            | some res =>
              if res.ret > 0 then
                some { status := 0
                       stdout := if a.raw_mode = true then cstr res.response
                                 else cleaned_output command res.response
                       stderr := using_msg ++ endpoints_msg ++ claim_msg }
              else
                some { status := 0, stdout := []
                       stderr := using_msg ++ endpoints_msg ++ claim_msg ++ [Msg.no_response] }

/-! ## Sample hosts -/

/-- A host with `libusb` up and one modem `12d1:1506` (`sample_device`) that accepts the
command and answers the inbound transfers from `reads`; the `response` array starts
zeroed. -/
def sample_host (reads : List BulkRead) : Host :=
  { strtol16 := fun _ => 0
    init_r := 0
    open_device := fun pid => if pid = 0x1506 then some sample_device else none
    transport := scripted reads
    response := List.replicate MAX_RESPONSE_SIZE 0 }

/-- The command line `huawei_at AT`. -/
def at_argv : List (List Byte) := [bytes "huawei_at", bytes "AT"]

/-- The option variables after parsing `at_argv`. -/
def at_args : Args :=
  { raw_mode := false, verbose := false, list_only := false, force_pid := 0,
    command := some (bytes "AT") }

/-- The echo `"AT\r"`, then a transfer failing with `LIBUSB_ERROR_IO` (`-1`). -/
def echo_then_error : List BulkRead := [⟨0, bytes "AT\r"⟩, ⟨-1, []⟩]

theorem markers_spelled :
    MARK_OK = bytes "\r\nOK\r\n" ∧ MARK_ERROR = bytes "\r\nERROR\r\n" ∧
    MARK_CME = bytes "\r\n+CME ERROR:" ∧ MARK_CMS = bytes "\r\n+CMS ERROR:" := by
  decide


theorem int_cast_of_lt (n : Nat) (h : n < 2 ^ 31) : int_cast n = (n : Int) := by
  unfold int_cast
  rw [if_pos h]

theorem int_cast_eq_mod (n : Nat) :
    int_cast n = ((((n + 2 ^ 31) % 2 ^ 32 : Nat) : Int)) - 2 ^ 31 := by
  unfold int_cast
  split_ifs <;> omega

/-- Above `INT_MAX` the conversion wraps: `2 ^ 31` becomes `INT_MIN`, `2 ^ 32 - 1`
becomes `-1`, and `2 ^ 32 + 5` becomes `5`. -/
theorem int_cast_wraps :
    int_cast (2 ^ 31 - 1) = 2147483647 ∧ int_cast (2 ^ 31) = -2147483648 ∧
    int_cast (2 ^ 32 - 1) = -1 ∧ int_cast (2 ^ 32 + 5) = 5 := by
  refine ⟨?_, ?_, ?_, ?_⟩ <;> (unfold int_cast; norm_num)

theorem int_cast_le (n : Nat) : int_cast n ≤ (n : Int) := by
  unfold int_cast
  split_ifs <;> omega

theorem size_sub_eq (a b : Nat) (hb : b ≤ a) : size_sub a b = a - b := by
  unfold size_sub
  rw [if_pos hb]

theorem size_sub_eq_mod (a b : Nat) (ha : a < 2 ^ 64) (hb : b < 2 ^ 64) :
    size_sub a b = (a + 2 ^ 64 - b) % 2 ^ 64 := by
  unfold size_sub
  split_ifs <;> omega

theorem cstr_append_nul (l t : List Byte) : cstr (l ++ 0 :: t) = cstr l := by
  induction l with
  | nil => simp [cstr]
  | cons a l ih =>
    unfold cstr at ih ⊢
    by_cases ha : a = 0
    · simp [List.takeWhile, ha]
    · simp [List.takeWhile, ha, ih]

theorem has_marker_append_nul (l t : List Byte) : has_marker (l ++ 0 :: t) = has_marker l := by
  simp [has_marker, strstr, cstr_append_nul]

theorem store_at_length (acc : List Byte) (b c : Byte) (tail : List Byte) :
    store (acc ++ b :: tail) acc.length c = some (acc ++ c :: tail) := by
  unfold store
  have : acc.length < (acc ++ b :: tail).length := by simp
  rw [if_pos this]
  congr 1
  induction acc with
  | nil => simp
  | cons a acc ih => simp [List.set]

theorem memcpy_at_length (acc rest src : List Byte) (n : Nat) (hn : n ≤ src.length)
    (hr : n ≤ rest.length) :
    memcpy (acc ++ rest) acc.length src n = some (acc ++ src.take n ++ rest.drop n) := by
  unfold memcpy
  have : acc.length + n ≤ (acc ++ rest).length ∧ n ≤ src.length := by
    constructor
    · simp; omega
    · exact hn
  rw [if_pos this]
  simp [List.take_append_eq_append_take, List.drop_append_eq_append_drop]

/-! ## Lemmas: the read loop acts on the accumulated text -/

theorem abs_body_length_le (cap : Nat) (acc : List Byte) (e : Nat) (x : BulkRead)
    (h : acc.length ≤ cap) : (abs_body cap acc e x).2.1.length ≤ cap := by
  unfold abs_body
  split_ifs <;> simp [List.length_take] <;> omega

theorem abs_body_length_ge (cap : Nat) (acc : List Byte) (e : Nat) (x : BulkRead) :
    acc.length ≤ (abs_body cap acc e x).2.1.length := by
  unfold abs_body
  split_ifs <;> simp

theorem abs_body_timeout (cap : Nat) (acc : List Byte) (e : Nat) (x : BulkRead)
    (ht : x.r = LIBUSB_ERROR_TIMEOUT) : abs_body cap acc e x = (false, acc, e + 1) := by
  unfold abs_body
  rw [if_pos ht]

theorem abs_body_error (cap : Nat) (acc : List Byte) (e : Nat) (x : BulkRead)
    (ht : x.r ≠ LIBUSB_ERROR_TIMEOUT) (hr : x.r ≠ 0) : abs_body cap acc e x = (true, acc, e) := by
  unfold abs_body
  rw [if_neg ht, if_pos hr]

theorem abs_body_zero (cap : Nat) (acc : List Byte) (e : Nat) (x : BulkRead)
    (hr : x.r = 0) (hd : ¬ 0 < x.data.length) : abs_body cap acc e x = (false, acc, e + 1) := by
  have ht : x.r ≠ LIBUSB_ERROR_TIMEOUT := by rw [hr]; decide
  unfold abs_body
  rw [if_neg ht, if_neg (not_not.mpr hr), if_neg hd]

theorem abs_body_data (cap : Nat) (acc : List Byte) (e : Nat) (x : BulkRead)
    (hr : x.r = 0) (hd : 0 < x.data.length) :
    abs_body cap acc e x =
      if has_marker (acc ++ x.data.take (cap - acc.length)) then
        (true, acc ++ x.data.take (cap - acc.length), e)
      else (false, acc ++ x.data.take (cap - acc.length), 0) := by
  have ht : x.r ≠ LIBUSB_ERROR_TIMEOUT := by rw [hr]; decide
  unfold abs_body
  rw [if_neg ht, if_neg (not_not.mpr hr), if_pos hd]

/-- One pass of the body on a buffer `acc ++ 0 :: tail` is the text-level body. -/
theorem read_body_sim (rs : Nat) (h1 : 1 ≤ rs) (acc tail : List Byte)
    (e : Nat) (x : BulkRead) (hlen : acc.length + 1 + tail.length = rs)
    (hlt : acc.length < rs - 1) :
    read_body rs ⟨acc ++ 0 :: tail, acc.length, e⟩ x =
      if (abs_body (rs - 1) acc e x).1 then
        .brk ⟨(abs_body (rs - 1) acc e x).2.1 ++
                0 :: tail.drop ((abs_body (rs - 1) acc e x).2.1.length - acc.length),
              (abs_body (rs - 1) acc e x).2.1.length, (abs_body (rs - 1) acc e x).2.2⟩
      else
        .next ⟨(abs_body (rs - 1) acc e x).2.1 ++
                0 :: tail.drop ((abs_body (rs - 1) acc e x).2.1.length - acc.length),
              (abs_body (rs - 1) acc e x).2.1.length, (abs_body (rs - 1) acc e x).2.2⟩ := by
  have hs1 : size_sub rs 1 = rs - 1 := size_sub_eq rs 1 h1
  have hs2 : size_sub (rs - 1) acc.length = rs - 1 - acc.length :=
    size_sub_eq (rs - 1) acc.length (by omega)
  by_cases ht : x.r = LIBUSB_ERROR_TIMEOUT
  · rw [abs_body_timeout _ _ _ _ ht]
    unfold read_body
    rw [if_pos ht]
    simp
  · by_cases hr : x.r = 0
    · by_cases hd : 0 < x.data.length
      · rw [abs_body_data _ _ _ _ hr hd]
        unfold read_body
        rw [if_neg ht, if_neg (not_not.mpr hr), if_pos hd]
        simp only [hs1, hs2]
        have hto : (if acc.length + x.data.length ≥ rs - 1 then rs - 1 - acc.length
            else x.data.length) = min (rs - 1 - acc.length) x.data.length := by
          split_ifs <;> omega
        rw [hto]
        have htake : x.data.take (min (rs - 1 - acc.length) x.data.length)
            = x.data.take (rs - 1 - acc.length) := by
          rw [List.take_eq_take]; simp
        have hmem := memcpy_at_length acc (0 :: tail) x.data
          (min (rs - 1 - acc.length) x.data.length) (by omega) (by simp; omega)
        rw [hmem, htake]
        have hdl : (x.data.take (rs - 1 - acc.length)).length
            = min (rs - 1 - acc.length) x.data.length := List.length_take _ _
        obtain ⟨m, hm⟩ : ∃ m, min (rs - 1 - acc.length) x.data.length = m + 1 :=
          ⟨min (rs - 1 - acc.length) x.data.length - 1, by omega⟩
        have hmt : m < tail.length := by omega
        have hdrop : List.drop (m + 1) (0 :: tail) = tail[m] :: tail.drop (m + 1) := by
          rw [List.drop_succ_cons]
          exact List.drop_eq_getElem_cons hmt
        have hidx : acc.length + (m + 1) = (acc ++ x.data.take (rs - 1 - acc.length)).length := by
          rw [List.length_append, hdl, hm]
        have hsub : (acc ++ x.data.take (rs - 1 - acc.length)).length - acc.length = m + 1 := by
          rw [← hidx]; omega
        rw [hm, hdrop]
        simp only []
        rw [hidx, store_at_length]
        simp only [has_marker_append_nul]
        by_cases hmk : has_marker (acc ++ x.data.take (rs - 1 - acc.length)) = true
        · simp only [if_pos hmk, hsub]
          simp
        · simp only [if_neg hmk, hsub]
          simp
      · rw [abs_body_zero _ _ _ _ hr hd]
        unfold read_body
        rw [if_neg ht, if_neg (not_not.mpr hr), if_neg hd]
        simp
    · rw [abs_body_error _ _ _ _ ht hr]
      unfold read_body
      rw [if_neg ht, if_pos hr]
      simp

theorem abs_loop_length_ge (cap : Nat) (bulk_in : Nat → BulkRead) :
    ∀ (fuel i : Nat) (acc : List Byte) (e : Nat) (res : List Byte × Nat × Nat),
      abs_loop cap bulk_in fuel i acc e = some res → acc.length ≤ res.1.length := by
  intro fuel
  induction fuel with
  | zero =>
    intro i acc e res h
    rw [abs_loop] at h
    split_ifs at h
    cases h
    exact le_refl _
  | succ fuel ih =>
    intro i acc e res h
    rw [abs_loop] at h
    have hge := abs_body_length_ge cap acc e (bulk_in i)
    split_ifs at h
    · cases h; exact hge
    · exact le_trans hge (ih _ _ _ _ h)
    · cases h; exact le_refl _

theorem abs_loop_length_le (cap : Nat) (bulk_in : Nat → BulkRead) :
    ∀ (fuel i : Nat) (acc : List Byte) (e : Nat) (res : List Byte × Nat × Nat),
      acc.length ≤ cap →
      abs_loop cap bulk_in fuel i acc e = some res → res.1.length ≤ cap := by
  intro fuel
  induction fuel with
  | zero =>
    intro i acc e res hle h
    rw [abs_loop] at h
    split_ifs at h
    cases h
    exact hle
  | succ fuel ih =>
    intro i acc e res hle h
    rw [abs_loop] at h
    have hb := abs_body_length_le cap acc e (bulk_in i) hle
    split_ifs at h
    · cases h; exact hb
    · exact ih _ _ _ _ hb h
    · cases h; exact hle

/-- The loop on a buffer `acc ++ 0 :: tail` is the text-level loop. -/
theorem read_loop_sim (rs : Nat) (h1 : 1 ≤ rs) (bulk_in : Nat → BulkRead) :
    ∀ (fuel i : Nat) (acc tail : List Byte) (e : Nat),
      acc.length + 1 + tail.length = rs →
      read_loop rs bulk_in fuel i ⟨acc ++ 0 :: tail, acc.length, e⟩ =
        match abs_loop (rs - 1) bulk_in fuel i acc e with
        | none => .out_of_fuel
        | some (acc1, e1, n) =>
          .done ⟨acc1 ++ 0 :: tail.drop (acc1.length - acc.length), acc1.length, e1⟩ n := by
  have hs1 : size_sub rs 1 = rs - 1 := size_sub_eq rs 1 h1
  intro fuel
  induction fuel with
  | zero =>
    intro i acc tail e hlen
    rw [read_loop, abs_loop]
    unfold read_cond
    by_cases hc : acc.length < rs - 1 ∧ e < 5
    · simp [hs1, hc]
    · have hc2 : ¬ (acc.length < rs - 1 ∧ e < 5) := hc
      simp only [hs1, if_neg hc2]
      simp [hc]
  | succ fuel ih =>
    intro i acc tail e hlen
    rw [read_loop, abs_loop]
    unfold read_cond
    by_cases hc : acc.length < rs - 1 ∧ e < 5
    · have hb := read_body_sim rs h1 acc tail e (bulk_in i) hlen hc.1
      have hge := abs_body_length_ge (rs - 1) acc e (bulk_in i)
      have hle := abs_body_length_le (rs - 1) acc e (bulk_in i) (by omega)
      simp only [hs1, if_pos hc]
      simp only [hc, decide_True, Bool.and_self, if_true]
      rw [hb]
      by_cases hbrk : (abs_body (rs - 1) acc e (bulk_in i)).1 = true
      · simp only [if_pos hbrk]
      · simp only [if_neg hbrk]
        rw [ih (i + 1) _ _ _ (by simp; omega)]
        cases hres : abs_loop (rs - 1) bulk_in fuel (i + 1)
            (abs_body (rs - 1) acc e (bulk_in i)).2.1 (abs_body (rs - 1) acc e (bulk_in i)).2.2 with
        | none => rfl
        | some res =>
          obtain ⟨acc1, e1, n⟩ := res
          have hge1 := abs_loop_length_ge (rs - 1) bulk_in fuel (i + 1) _ _ _ hres
          simp only [List.drop_drop]
          have harith : (abs_body (rs - 1) acc e (bulk_in i)).2.1.length - acc.length +
              (acc1.length - (abs_body (rs - 1) acc e (bulk_in i)).2.1.length)
              = acc1.length - acc.length := by
            simp only [] at hge1
            omega
          rw [harith]
    · have hc2 : ¬ (acc.length < rs - 1 ∧ e < 5) := hc
      simp only [hs1, if_neg hc2]
      simp [hc]

/-- The iteration budget `5 * (cap - |acc|) + 1 - e` is enough. -/
theorem abs_loop_terminates (cap : Nat) (bulk_in : Nat → BulkRead) :
    ∀ (fuel i : Nat) (acc : List Byte) (e : Nat),
      5 * (cap - acc.length) + 1 ≤ fuel + e →
      ∃ res, abs_loop cap bulk_in fuel i acc e = some res := by
  intro fuel
  induction fuel with
  | zero =>
    intro i acc e h
    rw [abs_loop]
    have hc : ¬ (acc.length < cap ∧ e < 5) := by omega
    rw [if_neg hc]
    exact ⟨_, rfl⟩
  | succ fuel ih =>
    intro i acc e h
    rw [abs_loop]
    by_cases hc : acc.length < cap ∧ e < 5
    · rw [if_pos hc]
      by_cases hbrk : (abs_body cap acc e (bulk_in i)).1 = true
      · rw [if_pos hbrk]; exact ⟨_, rfl⟩
      · rw [if_neg hbrk]
        apply ih
        by_cases ht : (bulk_in i).r = LIBUSB_ERROR_TIMEOUT
        · rw [abs_body_timeout _ _ _ _ ht]; simp only []; omega
        · by_cases hr : (bulk_in i).r = 0
          · by_cases hd : 0 < (bulk_in i).data.length
            · rw [abs_body_data _ _ _ _ hr hd]
              split_ifs
              · simp only [List.length_append, List.length_take]; omega
              · simp only [List.length_append, List.length_take]; omega
            · rw [abs_body_zero _ _ _ _ hr hd]; simp only []; omega
          · rw [abs_body_error _ _ _ _ ht hr] at hbrk
            exact absurd rfl hbrk
    · rw [if_neg hc]; exact ⟨_, rfl⟩


theorem occurs_iff_infix (needle : List Byte) :
    ∀ hay : List Byte, occurs needle hay = true ↔ needle <:+: hay := by
  intro hay
  induction hay with
  | nil =>
    rw [occurs]
    simp [List.isPrefixOf_iff_prefix]
  | cons c cs ih =>
    rw [occurs, Bool.or_eq_true, ih, List.isPrefixOf_iff_prefix, List.infix_cons_iff]

theorem cstr_of_nul_free (l : List Byte) (h : ∀ b ∈ l, b ≠ 0) : cstr l = l := by
  unfold cstr
  rw [List.takeWhile_eq_self_iff]
  intro b hb
  simpa using h b hb

/-- Spec-level reading of "the text contains a terminal marker". -/
theorem has_marker_iff (l : List Byte) (h : ∀ b ∈ l, b ≠ 0) :
    has_marker l = true ↔
      (MARK_OK <:+: l ∨ MARK_ERROR <:+: l ∨ MARK_CME <:+: l ∨ MARK_CMS <:+: l) := by
  have e1 : cstr MARK_OK = MARK_OK := by decide
  have e2 : cstr MARK_ERROR = MARK_ERROR := by decide
  have e3 : cstr MARK_CME = MARK_CME := by decide
  have e4 : cstr MARK_CMS = MARK_CMS := by decide
  unfold has_marker strstr
  rw [cstr_of_nul_free l h, e1, e2, e3, e4]
  simp only [Bool.or_eq_true, occurs_iff_infix]
  tauto

theorem send_command_rejected (t : Transport) (g : Globals) (cmd response : List Byte)
    (rs : Nat) (h : t.bulk_out g.ep_out (snprintf_cr 256 cmd) ≠ 0) :
    send_command t g cmd response rs =
      some { ret := -1, response := response, sent := snprintf_cr 256 cmd, reads := 0 } := by
  unfold send_command
  simp only [if_pos h]

/-- After an accepted outbound transfer `send_command` is the text-level loop started on
the empty text, and its buffer is the text, a NUL, and the untouched rest. -/
theorem send_command_accepted (t : Transport) (g : Globals) (cmd response : List Byte)
    (rs : Nat) (h1 : 1 ≤ rs) (hlen : response.length = rs)
    (h : t.bulk_out g.ep_out (snprintf_cr 256 cmd) = 0) :
    ∃ acc e n, abs_loop (rs - 1) t.bulk_in (5 * (rs - 1) + 1) 0 [] 0 = some (acc, e, n) ∧
      acc.length ≤ rs - 1 ∧
      send_command t g cmd response rs =
        some { ret := int_cast acc.length,
               response := acc ++ 0 :: response.drop (acc.length + 1),
               sent := snprintf_cr 256 cmd, reads := n } := by
  obtain ⟨res, hres⟩ := abs_loop_terminates (rs - 1) t.bulk_in (5 * (rs - 1) + 1) 0 [] 0
    (by simp)
  obtain ⟨acc, e, n⟩ := res
  refine ⟨acc, e, n, hres, ?_, ?_⟩
  · exact abs_loop_length_le _ _ _ _ _ _ _ (by simp) hres
  · cases response with
    | nil => simp at hlen; omega
    | cons b tl =>
      have hsim := read_loop_sim rs h1 t.bulk_in (5 * (rs - 1) + 1) 0 [] tl 0
        (by simp at hlen ⊢; omega)
      rw [hres] at hsim
      have hfuel : read_fuel rs = 5 * (rs - 1) + 1 := by
        unfold read_fuel; rw [size_sub_eq rs 1 h1]
      have hstore : store (b :: tl) 0 0 = some (0 :: tl) := by
        simp [store]
      simp only [List.nil_append, List.length_nil] at hsim
      unfold send_command
      simp only [if_neg (not_not.mpr h), hstore]
      rw [hfuel, hsim]
      simp

/-- Case analysis on what the body does with one transfer outcome. -/
theorem abs_body_cases (cap : Nat) (acc : List Byte) (e : Nat) (x : BulkRead)
    (P : Bool × List Byte × Nat → Prop)
    (h_timeout : x.r = LIBUSB_ERROR_TIMEOUT → P (false, acc, e + 1))
    (h_error : x.r ≠ LIBUSB_ERROR_TIMEOUT → x.r ≠ 0 → P (true, acc, e))
    (h_zero : x.r = 0 → x.data.length = 0 → P (false, acc, e + 1))
    (h_hit : x.r = 0 → 0 < x.data.length →
      has_marker (acc ++ x.data.take (cap - acc.length)) = true →
      P (true, acc ++ x.data.take (cap - acc.length), e))
    (h_more : x.r = 0 → 0 < x.data.length →
      has_marker (acc ++ x.data.take (cap - acc.length)) = false →
      P (false, acc ++ x.data.take (cap - acc.length), 0)) :
    P (abs_body cap acc e x) := by
  by_cases ht : x.r = LIBUSB_ERROR_TIMEOUT
  · rw [abs_body_timeout _ _ _ _ ht]; exact h_timeout ht
  · by_cases hr : x.r = 0
    · by_cases hd : 0 < x.data.length
      · rw [abs_body_data _ _ _ _ hr hd]
        by_cases hm : has_marker (acc ++ x.data.take (cap - acc.length)) = true
        · rw [if_pos hm]; exact h_hit hr hd hm
        · rw [if_neg hm]; exact h_more hr hd (by simpa using hm)
      · rw [abs_body_zero _ _ _ _ hr hd]; exact h_zero hr (by omega)
    · rw [abs_body_error _ _ _ _ ht hr]; exact h_error ht hr

/-- Invariant rule for the text-level loop: `I` holds whenever the loop condition is
tested, `Q` holds of the final text, counter and number of transfers. -/
theorem abs_loop_rule (cap : Nat) (bulk_in : Nat → BulkRead)
    (I : Nat → List Byte → Nat → Prop) (Q : List Byte → Nat → Nat → Prop)
    (hexit : ∀ i acc e, I i acc e → ¬ (acc.length < cap ∧ e < 5) → Q acc e i)
    (hstep : ∀ i acc e, I i acc e → acc.length < cap → e < 5 →
      ((abs_body cap acc e (bulk_in i)).1 = true →
        Q (abs_body cap acc e (bulk_in i)).2.1 (abs_body cap acc e (bulk_in i)).2.2 (i + 1)) ∧
      ((abs_body cap acc e (bulk_in i)).1 = false →
        I (i + 1) (abs_body cap acc e (bulk_in i)).2.1 (abs_body cap acc e (bulk_in i)).2.2)) :
    ∀ (fuel i : Nat) (acc : List Byte) (e : Nat) (res : List Byte × Nat × Nat),
      I i acc e → abs_loop cap bulk_in fuel i acc e = some res → Q res.1 res.2.1 res.2.2 := by
  intro fuel
  induction fuel with
  | zero =>
    intro i acc e res hI h
    rw [abs_loop] at h
    split_ifs at h with hc
    cases h
    exact hexit i acc e hI hc
  | succ fuel ih =>
    intro i acc e res hI h
    rw [abs_loop] at h
    split_ifs at h with hc hb
    · cases h
      exact (hstep i acc e hI hc.1 hc.2).1 hb
    · exact ih _ _ _ _ ((hstep i acc e hI hc.1 hc.2).2 (by simpa using hb)) h
    · cases h
      exact hexit i acc e hI hc

theorem stream_succ_of_ne (bulk_in : Nat → BulkRead) (i : Nat) (h : (bulk_in i).r ≠ 0) :
    stream bulk_in (i + 1) = stream bulk_in i := by
  rw [stream, if_neg h, List.append_nil]

theorem stream_succ_of_ok (bulk_in : Nat → BulkRead) (i : Nat) (h : (bulk_in i).r = 0) :
    stream bulk_in (i + 1) = stream bulk_in i ++ (bulk_in i).data := by
  rw [stream, if_pos h]

theorem timeout_ne_zero : LIBUSB_ERROR_TIMEOUT ≠ 0 := by decide

/-- One pass of the body keeps the text equal to the received stream cut at `cap`. -/
theorem abs_body_stream (cap : Nat) (bulk_in : Nat → BulkRead) (i : Nat) (acc : List Byte)
    (e : Nat) (hI : acc = (stream bulk_in i).take cap) (hlt : acc.length < cap) :
    (abs_body cap acc e (bulk_in i)).2.1 = (stream bulk_in (i + 1)).take cap := by
  have hfull : acc = stream bulk_in i := by
    rw [hI] at hlt ⊢
    rw [List.length_take] at hlt
    exact List.take_of_length_le (by omega)
  have hacc : acc.take cap = acc := List.take_of_length_le (by omega)
  apply abs_body_cases cap acc e (bulk_in i)
    (fun b => b.2.1 = (stream bulk_in (i + 1)).take cap)
  · intro ht
    have : (bulk_in i).r ≠ 0 := by rw [ht]; exact timeout_ne_zero
    simp only [stream_succ_of_ne _ _ this]
    exact hI
  · intro _ hr
    simp only [stream_succ_of_ne _ _ hr]
    exact hI
  · intro hr hz
    have : (bulk_in i).data = [] := List.length_eq_zero.mp hz
    simp only [stream_succ_of_ok _ _ hr, this, List.append_nil]
    exact hI
  · intro hr _ _
    simp only []
    rw [stream_succ_of_ok _ _ hr, ← hfull, List.take_append_eq_append_take, hacc]
  · intro hr _ _
    simp only []
    rw [stream_succ_of_ok _ _ hr, ← hfull, List.take_append_eq_append_take, hacc]

/-- The text held by the loop is the received byte stream cut at the capacity. -/
theorem abs_loop_stream (cap : Nat) (bulk_in : Nat → BulkRead) (fuel : Nat)
    (res : List Byte × Nat × Nat)
    (h : abs_loop cap bulk_in fuel 0 [] 0 = some res) :
    res.1 = (stream bulk_in res.2.2).take cap := by
  refine abs_loop_rule cap bulk_in (fun i acc _ => acc = (stream bulk_in i).take cap)
    (fun acc _ n => acc = (stream bulk_in n).take cap) ?_ ?_ fuel 0 [] 0 res ?_ h
  · intro i acc e hI _; exact hI
  · intro i acc e hI hlt _
    have := abs_body_stream cap bulk_in i acc e hI hlt
    exact ⟨fun _ => this, fun _ => this⟩
  · simp [stream]

theorem is_empty_read_of_timeout (x : BulkRead) (h : x.r = LIBUSB_ERROR_TIMEOUT) :
    is_empty_read x = true := by
  simp [is_empty_read, h]

theorem is_empty_read_of_zero (x : BulkRead) (hr : x.r = 0) (hz : x.data.length = 0) :
    is_empty_read x = true := by
  simp [is_empty_read, hr, hz]

theorem is_error_read_of (x : BulkRead) (ht : x.r ≠ LIBUSB_ERROR_TIMEOUT) (hr : x.r ≠ 0) :
    is_error_read x = true := by
  simp [is_error_read, ht, hr]

/-- Text level: the loop is left at the latest with the read that completes an `OK`
terminator, with at least one byte accumulated. -/
theorem abs_loop_ok (cap : Nat) (hcap : 1 ≤ cap) (bulk_in : Nat → BulkRead) (n fuel : Nat)
    (hnoerr : ∀ j, j ≤ n → is_error_read (bulk_in j) = false)
    (hnoquiet : ∀ k, k + 5 ≤ n + 1 → ∃ j, k ≤ j ∧ j < k + 5 ∧ is_empty_read (bulk_in j) = false)
    (hnul : ∀ b ∈ stream bulk_in (n + 1), b ≠ 0)
    (hok : MARK_OK <:+: stream bulk_in (n + 1))
    (res : List Byte × Nat × Nat)
    (h : abs_loop cap bulk_in fuel 0 [] 0 = some res) :
    res.2.2 ≤ n + 1 ∧ 1 ≤ res.1.length := by
  refine abs_loop_rule cap bulk_in
    (fun i acc e => i ≤ n + 1 ∧ acc = (stream bulk_in i).take cap ∧ has_marker acc = false ∧
      e ≤ i ∧ ∀ j, i - e ≤ j → j < i → is_empty_read (bulk_in j) = true)
    (fun acc _ m => m ≤ n + 1 ∧ 1 ≤ acc.length) ?_ ?_ fuel 0 [] 0 res ?_ h
  · rintro i acc e ⟨hi, _, _, hei, hwin⟩ hc
    refine ⟨hi, ?_⟩
    by_cases he : e < 5
    · omega
    · exfalso
      obtain ⟨j, hj1, hj2, hj3⟩ := hnoquiet (i - 5) (by omega)
      have := hwin j (by omega) (by omega)
      rw [this] at hj3
      exact Bool.noConfusion hj3
  · rintro i acc e ⟨hi, hacc, hmk, hei, hwin⟩ hlt he
    have hin : i ≤ n := by
      by_contra hcon
      have hi1 : i = n + 1 := by omega
      have hfull : acc = stream bulk_in (n + 1) := by
        rw [hacc, hi1] at hlt ⊢
        rw [List.length_take] at hlt
        exact List.take_of_length_le (by omega)
      have : has_marker acc = true := by
        rw [hfull, has_marker_iff _ hnul]
        exact Or.inl hok
      rw [this] at hmk
      exact Bool.noConfusion hmk
    have hstr := abs_body_stream cap bulk_in i acc e hacc hlt
    revert hstr
    apply abs_body_cases cap acc e (bulk_in i)
      (fun b => b.2.1 = (stream bulk_in (i + 1)).take cap →
        (b.1 = true → (i + 1 ≤ n + 1 ∧ 1 ≤ b.2.1.length)) ∧
        (b.1 = false → (i + 1 ≤ n + 1 ∧ b.2.1 = (stream bulk_in (i + 1)).take cap ∧
          has_marker b.2.1 = false ∧ b.2.2 ≤ i + 1 ∧
          ∀ j, i + 1 - b.2.2 ≤ j → j < i + 1 → is_empty_read (bulk_in j) = true)))
    · intro ht hstr
      refine ⟨fun hb => Bool.noConfusion hb, fun _ => ⟨by omega, hstr, hmk, by simp only []; omega, ?_⟩⟩
      intro j hj1 hj2
      simp only [] at hj1
      by_cases hji : j = i
      · rw [hji]; exact is_empty_read_of_timeout _ ht
      · exact hwin j (by omega) (by omega)
    · intro ht hr _
      have := hnoerr i hin
      rw [is_error_read_of _ ht hr] at this
      exact Bool.noConfusion this
    · intro hr hz hstr
      refine ⟨fun hb => Bool.noConfusion hb, fun _ => ⟨by omega, hstr, hmk, by simp only []; omega, ?_⟩⟩
      intro j hj1 hj2
      simp only [] at hj1
      by_cases hji : j = i
      · rw [hji]; exact is_empty_read_of_zero _ hr hz
      · exact hwin j (by omega) (by omega)
    · intro _ hd _ _
      refine ⟨fun _ => ⟨by omega, ?_⟩, fun hb => Bool.noConfusion hb⟩
      simp only [List.length_append, List.length_take]
      omega
    · intro _ _ hm hstr
      refine ⟨fun hb => Bool.noConfusion hb, fun _ => ⟨by omega, hstr, hm, Nat.zero_le _, ?_⟩⟩
      intro j hj1 hj2
      simp only [] at hj1
      omega
  · refine ⟨by omega, by simp [stream], by decide, le_refl _, ?_⟩
    intro j _ hj2
    omega

/-! ## Lemmas: `find_endpoints` -/

theorem scan_endpoints_fst (eps : List libusb_endpoint_descriptor) :
    ∀ fi fo : Int,
      ((∀ ep ∈ eps, is_bulk_in ep = false) ∧ (scan_endpoints eps (fi, fo)).1 = fi) ∨
      (∃ ep ∈ eps, is_bulk_in ep = true ∧
        (scan_endpoints eps (fi, fo)).1 = (ep.bEndpointAddress : Int)) := by
  induction eps with
  | nil => intro fi fo; left; simp [scan_endpoints]
  | cons ep rest ih =>
    intro fi fo
    rw [scan_endpoints]
    by_cases hb : ep.bmAttributes &&& 0x03 = LIBUSB_TRANSFER_TYPE_BULK
    · by_cases hd : ep.bEndpointAddress &&& 0x80 ≠ 0
      · rw [if_pos hb, if_pos hd]
        have hep : is_bulk_in ep = true := by simp [is_bulk_in, hb, hd]
        rcases ih (ep.bEndpointAddress : Int) fo with ⟨hno, heq⟩ | ⟨ep1, hmem, h1, h2⟩
        · right; exact ⟨ep, List.mem_cons_self _ _, hep, heq⟩
        · right; exact ⟨ep1, List.mem_cons_of_mem _ hmem, h1, h2⟩
      · rw [if_pos hb, if_neg hd]
        have hep : is_bulk_in ep = false := by simp [is_bulk_in, hb, hd]
        rcases ih fi (ep.bEndpointAddress : Int) with ⟨hno, heq⟩ | ⟨ep1, hmem, h1, h2⟩
        · left
          refine ⟨?_, heq⟩
          intro e he
          rcases List.mem_cons.mp he with rfl | he
          · exact hep
          · exact hno e he
        · right; exact ⟨ep1, List.mem_cons_of_mem _ hmem, h1, h2⟩
    · rw [if_neg hb]
      have hep : is_bulk_in ep = false := by simp [is_bulk_in, hb]
      rcases ih fi fo with ⟨hno, heq⟩ | ⟨ep1, hmem, h1, h2⟩
      · left
        refine ⟨?_, heq⟩
        intro e he
        rcases List.mem_cons.mp he with rfl | he
        · exact hep
        · exact hno e he
      · right; exact ⟨ep1, List.mem_cons_of_mem _ hmem, h1, h2⟩

theorem scan_endpoints_snd (eps : List libusb_endpoint_descriptor) :
    ∀ fi fo : Int,
      ((∀ ep ∈ eps, is_bulk_out ep = false) ∧ (scan_endpoints eps (fi, fo)).2 = fo) ∨
      (∃ ep ∈ eps, is_bulk_out ep = true ∧
        (scan_endpoints eps (fi, fo)).2 = (ep.bEndpointAddress : Int)) := by
  induction eps with
  | nil => intro fi fo; left; simp [scan_endpoints]
  | cons ep rest ih =>
    intro fi fo
    rw [scan_endpoints]
    by_cases hb : ep.bmAttributes &&& 0x03 = LIBUSB_TRANSFER_TYPE_BULK
    · by_cases hd : ep.bEndpointAddress &&& 0x80 ≠ 0
      · rw [if_pos hb, if_pos hd]
        have hep : is_bulk_out ep = false := by simp [is_bulk_out, hb, hd]
        rcases ih (ep.bEndpointAddress : Int) fo with ⟨hno, heq⟩ | ⟨ep1, hmem, h1, h2⟩
        · left
          refine ⟨?_, heq⟩
          intro e he
          rcases List.mem_cons.mp he with rfl | he
          · exact hep
          · exact hno e he
        · right; exact ⟨ep1, List.mem_cons_of_mem _ hmem, h1, h2⟩
      · rw [if_pos hb, if_neg hd]
        have hep : is_bulk_out ep = true := by
          have : ep.bEndpointAddress &&& 0x80 = 0 := not_not.mp hd
          simp [is_bulk_out, hb, this]
        rcases ih fi (ep.bEndpointAddress : Int) with ⟨hno, heq⟩ | ⟨ep1, hmem, h1, h2⟩
        · right; exact ⟨ep, List.mem_cons_self _ _, hep, heq⟩
        · right; exact ⟨ep1, List.mem_cons_of_mem _ hmem, h1, h2⟩
    · rw [if_neg hb]
      have hep : is_bulk_out ep = false := by simp [is_bulk_out, hb]
      rcases ih fi fo with ⟨hno, heq⟩ | ⟨ep1, hmem, h1, h2⟩
      · left
        refine ⟨?_, heq⟩
        intro e he
        rcases List.mem_cons.mp he with rfl | he
        · exact hep
        · exact hno e he
      · right; exact ⟨ep1, List.mem_cons_of_mem _ hmem, h1, h2⟩

/-- The test `found_in >= 0 && found_out >= 0` holds exactly for alt-settings with a
bulk IN/OUT pair. -/
theorem found_both_iff (s : libusb_interface_descriptor) :
    ((scan_endpoints s.endpoint (-1, -1)).1 ≥ 0 ∧ (scan_endpoints s.endpoint (-1, -1)).2 ≥ 0) ↔
      has_bulk_pair s = true := by
  unfold has_bulk_pair
  rw [Bool.and_eq_true, List.any_eq_true, List.any_eq_true]
  constructor
  · rintro ⟨h1, h2⟩
    constructor
    · rcases scan_endpoints_fst s.endpoint (-1) (-1) with ⟨_, heq⟩ | ⟨ep, hm, hb, _⟩
      · rw [heq] at h1; omega
      · exact ⟨ep, hm, hb⟩
    · rcases scan_endpoints_snd s.endpoint (-1) (-1) with ⟨_, heq⟩ | ⟨ep, hm, hb, _⟩
      · rw [heq] at h2; omega
      · exact ⟨ep, hm, hb⟩
  · rintro ⟨⟨e1, hm1, hb1⟩, ⟨e2, hm2, hb2⟩⟩
    constructor
    · rcases scan_endpoints_fst s.endpoint (-1) (-1) with ⟨hno, _⟩ | ⟨ep, _, _, heq⟩
      · rw [hno e1 hm1] at hb1; exact Bool.noConfusion hb1
      · rw [heq]; exact Int.ofNat_nonneg _
    · rcases scan_endpoints_snd s.endpoint (-1) (-1) with ⟨hno, _⟩ | ⟨ep, _, _, heq⟩
      · rw [hno e2 hm2] at hb2; exact Bool.noConfusion hb2
      · rw [heq]; exact Int.ofNat_nonneg _

theorem not_preferred_iff (s : libusb_interface_descriptor) :
    (s.bInterfaceClass ≠ 0x0A ∧ s.bInterfaceClass ≠ 0xFF ∧ s.bInterfaceClass ≠ 0x02) ↔
      preferred_class s = false := by
  unfold preferred_class
  simp only [Bool.or_eq_false_iff, decide_eq_false_iff_not]
  tauto

theorem first_pass_settings_append (a b : List libusb_interface_descriptor) :
    first_pass_settings (a ++ b) =
      match first_pass_settings a with
      | some g => some g
      | none => first_pass_settings b := by
  induction a with
  | nil => simp [first_pass_settings]
  | cons s rest ih =>
    rw [List.cons_append, first_pass_settings, first_pass_settings]
    simp only []
    split_ifs
    · exact ih
    · rfl
    · exact ih

theorem first_pass_flat (ifs : List libusb_interface) :
    first_pass ifs = first_pass_settings (ifs.map (fun iface => iface.altsetting)).flatten := by
  induction ifs with
  | nil => simp [first_pass, first_pass_settings]
  | cons iface rest ih =>
    rw [first_pass, List.map_cons, List.flatten_cons, first_pass_settings_append, ih]

theorem second_pass_settings_append (a b : List libusb_interface_descriptor) :
    ∀ g, second_pass_settings (a ++ b) g = second_pass_settings b (second_pass_settings a g) := by
  induction a with
  | nil => intro g; simp [second_pass_settings]
  | cons s rest ih =>
    intro g
    rw [List.cons_append, second_pass_settings, second_pass_settings]
    split_ifs
    · exact ih _
    · exact ih _

theorem second_pass_flat (ifs : List libusb_interface) :
    ∀ g, second_pass ifs g =
      second_pass_settings (ifs.map (fun iface => iface.altsetting)).flatten g := by
  induction ifs with
  | nil => intro g; simp [second_pass, second_pass_settings]
  | cons iface rest ih =>
    intro g
    rw [second_pass, List.map_cons, List.flatten_cons, second_pass_settings_append, ih]

/-- Pass 1 finds nothing exactly when no preferred alt-setting has a bulk pair. -/
theorem first_pass_settings_none (ss : List libusb_interface_descriptor) :
    first_pass_settings ss = none ↔
      ∀ s ∈ ss, ¬ (preferred_class s = true ∧ has_bulk_pair s = true) := by
  induction ss with
  | nil => simp [first_pass_settings]
  | cons s rest ih =>
    rw [first_pass_settings]
    simp only [List.mem_cons, forall_eq_or_imp]
    by_cases hp : preferred_class s = true
    · have hnp : ¬ (s.bInterfaceClass ≠ 0x0A ∧ s.bInterfaceClass ≠ 0xFF ∧
          s.bInterfaceClass ≠ 0x02) := by
        rw [not_preferred_iff, hp]; exact Bool.noConfusion
      rw [if_neg hnp]
      by_cases hb : has_bulk_pair s = true
      · rw [if_pos ((found_both_iff s).mpr hb)]
        simp [hp, hb]
      · rw [if_neg (fun h => hb ((found_both_iff s).mp h)), ih]
        simp [hb]
    · have hnp : s.bInterfaceClass ≠ 0x0A ∧ s.bInterfaceClass ≠ 0xFF ∧
          s.bInterfaceClass ≠ 0x02 := by
        rw [not_preferred_iff]; simpa using hp
      rw [if_pos hnp, ih]
      simp [hp]

/-- Pass 1 settles on the first preferred alt-setting with a bulk pair. -/
theorem first_pass_settings_first (pre post : List libusb_interface_descriptor)
    (s : libusb_interface_descriptor)
    (hpre : ∀ s1 ∈ pre, ¬ (preferred_class s1 = true ∧ has_bulk_pair s1 = true))
    (hp : preferred_class s = true) (hb : has_bulk_pair s = true) :
    first_pass_settings (pre ++ s :: post) = some (resolved_to s) := by
  rw [first_pass_settings_append, (first_pass_settings_none pre).mpr hpre]
  simp only []
  rw [first_pass_settings]
  simp only []
  have hnp : ¬ (s.bInterfaceClass ≠ 0x0A ∧ s.bInterfaceClass ≠ 0xFF ∧
      s.bInterfaceClass ≠ 0x02) := by
    rw [not_preferred_iff, hp]; exact Bool.noConfusion
  rw [if_neg hnp, if_pos ((found_both_iff s).mpr hb)]
  rfl

/-- Pass 2 changes nothing once `ep_in` is set. -/
theorem second_pass_settings_set (ss : List libusb_interface_descriptor) :
    ∀ g : Globals, 0 ≤ g.ep_in → second_pass_settings ss g = g := by
  induction ss with
  | nil => intro g _; rfl
  | cons s rest ih =>
    intro g hg
    rw [second_pass_settings]
    have : ¬ ((scan_endpoints s.endpoint (-1, -1)).1 ≥ 0 ∧
        (scan_endpoints s.endpoint (-1, -1)).2 ≥ 0 ∧ g.ep_in < 0) := by
      rintro ⟨_, _, h⟩; omega
    rw [if_neg this]
    exact ih g hg

/-- Pass 2 changes nothing when no alt-setting has a bulk pair. -/
theorem second_pass_settings_none (ss : List libusb_interface_descriptor)
    (hno : ∀ s ∈ ss, has_bulk_pair s = false) :
    ∀ g : Globals, second_pass_settings ss g = g := by
  induction ss with
  | nil => intro g; rfl
  | cons s rest ih =>
    intro g
    rw [second_pass_settings]
    have hs : has_bulk_pair s = false := hno s (List.mem_cons_self _ _)
    have : ¬ ((scan_endpoints s.endpoint (-1, -1)).1 ≥ 0 ∧
        (scan_endpoints s.endpoint (-1, -1)).2 ≥ 0 ∧ g.ep_in < 0) := by
      rintro ⟨h1, h2, _⟩
      rw [(found_both_iff s).mp ⟨h1, h2⟩] at hs
      exact Bool.noConfusion hs
    rw [if_neg this]
    exact ih (fun s1 h1 => hno s1 (List.mem_cons_of_mem _ h1)) g

theorem resolved_to_nonneg (s : libusb_interface_descriptor) (hb : has_bulk_pair s = true) :
    0 ≤ (resolved_to s).ep_in ∧ 0 ≤ (resolved_to s).ep_out :=
  (found_both_iff s).mpr hb

/-- Started with `ep_in` unset, pass 2 settles on the first alt-setting with a bulk pair. -/
theorem second_pass_settings_first (pre post : List libusb_interface_descriptor)
    (s : libusb_interface_descriptor) (g : Globals) (hg : g.ep_in < 0)
    (hpre : ∀ s1 ∈ pre, has_bulk_pair s1 = false) (hb : has_bulk_pair s = true) :
    second_pass_settings (pre ++ s :: post) g = resolved_to s := by
  rw [second_pass_settings_append, second_pass_settings_none pre hpre, second_pass_settings]
  have hf := (found_both_iff s).mpr hb
  rw [if_pos ⟨hf.1, hf.2, hg⟩]
  exact second_pass_settings_set post _ (resolved_to_nonneg s hb).1

/-- Either no element satisfies `p`, or the list splits at the first one that does. -/
theorem split_at_first {α : Type} (p : α → Bool) (l : List α) :
    (∀ a ∈ l, p a = false) ∨
    ∃ pre a post, l = pre ++ a :: post ∧ (∀ b ∈ pre, p b = false) ∧ p a = true := by
  induction l with
  | nil => left; simp
  | cons x rest ih =>
    by_cases hx : p x = true
    · right; exact ⟨[], x, rest, rfl, by simp, hx⟩
    · have hx2 : p x = false := by simpa using hx
      rcases ih with hno | ⟨pre, a, post, heq, hpre, ha⟩
      · left
        intro a ha
        rcases List.mem_cons.mp ha with rfl | ha
        · exact hx2
        · exact hno a ha
      · right
        refine ⟨x :: pre, a, post, by rw [heq]; rfl, ?_, ha⟩
        intro b hb
        rcases List.mem_cons.mp hb with rfl | hb
        · exact hx2
        · exact hpre b hb

theorem find_endpoints_of_first_pass (dev : libusb_device) (g g1 : Globals)
    (hdesc : 0 ≤ dev.config_r)
    (h : first_pass_settings (all_settings dev.config) = some g1) :
    find_endpoints dev g = (0, g1) := by
  unfold find_endpoints
  rw [if_neg (by omega), first_pass_flat]
  unfold all_settings at h
  rw [h]

theorem find_endpoints_of_second_pass (dev : libusb_device) (g : Globals)
    (hdesc : 0 ≤ dev.config_r)
    (h : first_pass_settings (all_settings dev.config) = none) :
    find_endpoints dev g =
      (if (second_pass_settings (all_settings dev.config) g).ep_in ≥ 0 ∧
          (second_pass_settings (all_settings dev.config) g).ep_out ≥ 0 then 0 else -1,
        second_pass_settings (all_settings dev.config) g) := by
  unfold find_endpoints
  rw [if_neg (by omega), first_pass_flat, second_pass_flat]
  unfold all_settings at h ⊢
  rw [h]

/-- Whenever some alt-setting has a bulk pair and `ep_in` starts unset, `find_endpoints`
returns 0 with the globals of an alt-setting that has a bulk pair. -/
theorem find_endpoints_of_pair (dev : libusb_device) (g : Globals)
    (hdesc : 0 ≤ dev.config_r) (hg : g.ep_in < 0)
    (hpair : ∃ s ∈ all_settings dev.config, has_bulk_pair s = true) :
    ∃ s ∈ all_settings dev.config, has_bulk_pair s = true ∧
      find_endpoints dev g = (0, resolved_to s) := by
  rcases split_at_first (fun s => preferred_class s && has_bulk_pair s)
      (all_settings dev.config) with hno | ⟨pre, s, post, heq, hpre, hs⟩
  · have hnone : first_pass_settings (all_settings dev.config) = none := by
      rw [first_pass_settings_none]
      intro s hs hc
      have := hno s hs
      simp only [hc.1, hc.2, Bool.and_self] at this
      exact Bool.noConfusion this
    rcases split_at_first has_bulk_pair (all_settings dev.config) with
      hno2 | ⟨pre, s, post, heq, hpre, hs⟩
    · obtain ⟨s, hs, hb⟩ := hpair
      rw [hno2 s hs] at hb
      exact Bool.noConfusion hb
    · have hsec := second_pass_settings_first pre post s g hg hpre hs
      rw [← heq] at hsec
      refine ⟨s, by rw [heq]; simp, hs, ?_⟩
      rw [find_endpoints_of_second_pass dev g hdesc hnone, hsec,
        if_pos ⟨(resolved_to_nonneg s hs).1, (resolved_to_nonneg s hs).2⟩]
  · simp only [Bool.and_eq_true] at hs
    have hfirst := first_pass_settings_first pre post s
      (fun s1 h1 hc => by
        have := hpre s1 h1
        simp only [hc.1, hc.2, Bool.and_self] at this
        exact Bool.noConfusion this) hs.1 hs.2
    rw [← heq] at hfirst
    exact ⟨s, by rw [heq]; simp, hs.2, find_endpoints_of_first_pass dev g _ hdesc hfirst⟩

/-- Without any bulk pair `find_endpoints` leaves the globals alone. -/
theorem find_endpoints_of_no_pair (dev : libusb_device) (g : Globals)
    (hdesc : 0 ≤ dev.config_r)
    (hno : ∀ s ∈ all_settings dev.config, has_bulk_pair s = false) :
    first_pass dev.config.interface = none ∧ second_pass dev.config.interface g = g ∧
    find_endpoints dev g = (if g.ep_in ≥ 0 ∧ g.ep_out ≥ 0 then 0 else -1, g) := by
  have hnone : first_pass_settings (all_settings dev.config) = none := by
    rw [first_pass_settings_none]
    intro s hs hc
    rw [hno s hs] at hc
    exact Bool.noConfusion hc.2
  have hsec := second_pass_settings_none _ hno g
  refine ⟨?_, ?_, ?_⟩
  · rw [first_pass_flat]; exact hnone
  · rw [second_pass_flat]; exact hsec
  · rw [find_endpoints_of_second_pass dev g hdesc hnone, hsec]

/-! ## Lemmas: `switch_device` -/

theorem detach_kernel_drivers_ops (t : Transport) :
    ∀ (n : Nat) (i : Int), ∀ op ∈ detach_kernel_drivers t n i,
      is_control_op op = false ∧ is_bulk_out_op op = false := by
  intro n
  induction n with
  | zero => intro i op h; simp [detach_kernel_drivers] at h
  | succ n ih =>
    intro i op h
    rw [detach_kernel_drivers, List.mem_append] at h
    rcases h with h | h
    · split_ifs at h
      · simp only [List.mem_cons, List.mem_singleton, List.not_mem_nil, or_false] at h
        rcases h with rfl | rfl <;> exact ⟨rfl, rfl⟩
      · simp only [List.mem_singleton] at h
        rw [h]; exact ⟨rfl, rfl⟩
    · exact ih _ op h

theorem probe_common_endpoints_ops (t : Transport) :
    ∀ (l : List Int), ∀ op ∈ probe_common_endpoints t l,
      is_control_op op = false ∧ is_bulk_out_op op = true := by
  intro l
  induction l with
  | nil => intro op h; simp [probe_common_endpoints] at h
  | cons a rest ih =>
    intro op h
    rw [probe_common_endpoints, List.mem_cons] at h
    rcases h with rfl | h
    · exact ⟨rfl, rfl⟩
    · split_ifs at h
      · simp at h
      · exact ih op h

theorem filter_eq_nil_of_forall {α : Type} (p : α → Bool) (l : List α)
    (h : ∀ a ∈ l, p a = false) : l.filter p = [] := by
  rw [List.filter_eq_nil_iff]
  intro a ha
  rw [h a ha]
  exact Bool.noConfusion

theorem filter_eq_self_of_forall {α : Type} (p : α → Bool) (l : List α)
    (h : ∀ a ∈ l, p a = true) : l.filter p = l := by
  rw [List.filter_eq_self]
  exact h

/-- The calls of `switch_device` on a device whose descriptor can be read. -/
theorem switch_device_eq (t : Transport) (dev : libusb_device) (hdesc : 0 ≤ dev.config_r) :
    switch_device t dev =
      some ((try_control_transfer t).1,
        detach_kernel_drivers t 8 0 ++
          [UsbOp.claim_interface (find_bulk_out_endpoint dev 0).2] ++
          (if t.claim_interface (find_bulk_out_endpoint dev 0).2 < 0 then []
           else
            (if (find_bulk_out_endpoint dev 0).1 ≥ 0 then
              (try_bulk_transfer t (find_bulk_out_endpoint dev 0).1 huawei_switch_msg).2 ++
                [UsbOp.usleep 500000] ++
              (try_bulk_transfer t (find_bulk_out_endpoint dev 0).1 huawei_switch_msg2).2 ++
                [UsbOp.usleep 500000] ++
              (try_bulk_transfer t (find_bulk_out_endpoint dev 0).1 eject_msg).2
            else probe_common_endpoints t [0x01, 0x02, 0x03, 0x04, 0x05]) ++
            [UsbOp.release_interface (find_bulk_out_endpoint dev 0).2]) ++
          (try_control_transfer t).2) := by
  unfold switch_device
  rw [if_neg (by omega)]

/-- The probe loop tries a non-empty prefix of `0x01 .. 0x05`: every address before the
last tried one rejected the transfer, and the last one accepted it unless all five
were tried and rejected. -/
theorem probe_common_endpoints_prefix (t : Transport) :
    ∃ tried : List Int,
      probe_common_endpoints t [0x01, 0x02, 0x03, 0x04, 0x05] =
        tried.map (fun a => UsbOp.bulk_out a huawei_switch_msg 1000) ∧
      tried <+: [0x01, 0x02, 0x03, 0x04, 0x05] ∧ tried ≠ [] ∧
      (∀ a ∈ tried.dropLast, t.bulk_out a huawei_switch_msg ≠ 0) ∧
      ((∃ a, tried.getLast? = some a ∧ t.bulk_out a huawei_switch_msg = 0) ∨
       (tried = [0x01, 0x02, 0x03, 0x04, 0x05] ∧
        ∀ a ∈ tried, t.bulk_out a huawei_switch_msg ≠ 0)) := by
  by_cases h1 : t.bulk_out 0x01 huawei_switch_msg = 0
  · exact ⟨[0x01], by simp [probe_common_endpoints, h1], by decide, by decide,
      by simp, Or.inl ⟨0x01, rfl, h1⟩⟩
  by_cases h2 : t.bulk_out 0x02 huawei_switch_msg = 0
  · exact ⟨[0x01, 0x02], by simp [probe_common_endpoints, h1, h2], by decide, by decide,
      by simp [h1], Or.inl ⟨0x02, rfl, h2⟩⟩
  by_cases h3 : t.bulk_out 0x03 huawei_switch_msg = 0
  · exact ⟨[0x01, 0x02, 0x03], by simp [probe_common_endpoints, h1, h2, h3], by decide,
      by decide, by simp [h1, h2], Or.inl ⟨0x03, rfl, h3⟩⟩
  by_cases h4 : t.bulk_out 0x04 huawei_switch_msg = 0
  · exact ⟨[0x01, 0x02, 0x03, 0x04], by simp [probe_common_endpoints, h1, h2, h3, h4],
      by decide, by decide, by simp [h1, h2, h3], Or.inl ⟨0x04, rfl, h4⟩⟩
  by_cases h5 : t.bulk_out 0x05 huawei_switch_msg = 0
  · exact ⟨[0x01, 0x02, 0x03, 0x04, 0x05],
      by simp [probe_common_endpoints, h1, h2, h3, h4, h5],
      by decide, by decide, by simp [h1, h2, h3, h4], Or.inl ⟨0x05, rfl, h5⟩⟩
  · exact ⟨[0x01, 0x02, 0x03, 0x04, 0x05],
      by simp [probe_common_endpoints, h1, h2, h3, h4, h5],
      by decide, by decide, by simp [h1, h2, h3, h4],
      Or.inr ⟨rfl, by simp [h1, h2, h3, h4, h5]⟩⟩

theorem pid_loop_ne_zero_iff (table : List Nat) (pid : Nat) :
    pid_loop table pid ≠ 0 ↔ pid ∈ entries table := by
  unfold entries
  induction table with
  | nil => simp [pid_loop]
  | cons x rest ih =>
    rw [pid_loop, List.takeWhile_cons]
    by_cases hx : x = 0
    · have hb : (x != 0) = false := by simp [hx]
      rw [if_neg (not_not.mpr hx), hb]
      simp
    · have hb : (x != 0) = true := by simpa using hx
      rw [if_pos hx, hb, if_pos rfl, List.mem_cons]
      by_cases hp : x = pid
      · rw [if_pos hp]
        exact ⟨fun _ => Or.inl hp.symm, fun _ => by decide⟩
      · rw [if_neg hp, ih]
        exact ⟨fun h => Or.inr h, fun h => h.resolve_left (fun e => hp e.symm)⟩

/-! ## Lemmas: which endpoint of an alt-setting is recorded -/

theorem scan_endpoints_append (a b : List libusb_endpoint_descriptor) :
    ∀ found : Int × Int, scan_endpoints (a ++ b) found = scan_endpoints b (scan_endpoints a found) := by
  induction a with
  | nil => intro found; rfl
  | cons ep rest ih =>
    intro found
    obtain ⟨fi, fo⟩ := found
    rw [List.cons_append, scan_endpoints, scan_endpoints]
    split_ifs
    · exact ih _
    · exact ih _
    · exact ih _

/-- Either no element satisfies `p`, or the list splits at the last one that does. -/
theorem split_at_last {α : Type} (p : α → Bool) (l : List α) :
    (∀ a ∈ l, p a = false) ∨
    ∃ pre a post, l = pre ++ a :: post ∧ p a = true ∧ (∀ b ∈ post, p b = false) := by
  induction l with
  | nil => left; simp
  | cons x rest ih =>
    rcases ih with hno | ⟨pre, a, post, heq, ha, hpost⟩
    · by_cases hx : p x = true
      · right; exact ⟨[], x, rest, rfl, hx, hno⟩
      · left
        intro a ha
        rcases List.mem_cons.mp ha with rfl | ha
        · simpa using hx
        · exact hno a ha
    · right
      exact ⟨x :: pre, a, post, by rw [heq]; rfl, ha, hpost⟩

/-- The address kept in `found_in` is that of the last bulk IN endpoint. -/
theorem scan_endpoints_last_in (pre post : List libusb_endpoint_descriptor)
    (ep : libusb_endpoint_descriptor) (found : Int × Int)
    (hep : is_bulk_in ep = true) (hpost : ∀ e ∈ post, is_bulk_in e = false) :
    (scan_endpoints (pre ++ ep :: post) found).1 = (ep.bEndpointAddress : Int) := by
  rw [scan_endpoints_append]
  obtain ⟨fi, fo⟩ := scan_endpoints pre found
  simp only [is_bulk_in, Bool.and_eq_true, decide_eq_true_eq] at hep
  rw [scan_endpoints, if_pos hep.1, if_pos hep.2]
  rcases scan_endpoints_fst post (ep.bEndpointAddress : Int) fo with ⟨_, h⟩ | ⟨e, he, hb, _⟩
  · exact h
  · rw [hpost e he] at hb
    exact Bool.noConfusion hb

/-- The address kept in `found_out` is that of the last bulk OUT endpoint. -/
theorem scan_endpoints_last_out (pre post : List libusb_endpoint_descriptor)
    (ep : libusb_endpoint_descriptor) (found : Int × Int)
    (hep : is_bulk_out ep = true) (hpost : ∀ e ∈ post, is_bulk_out e = false) :
    (scan_endpoints (pre ++ ep :: post) found).2 = (ep.bEndpointAddress : Int) := by
  rw [scan_endpoints_append]
  obtain ⟨fi, fo⟩ := scan_endpoints pre found
  simp only [is_bulk_out, Bool.and_eq_true, decide_eq_true_eq] at hep
  have hdir : ¬ (ep.bEndpointAddress &&& 0x80 ≠ 0) := not_not.mpr hep.2
  rw [scan_endpoints, if_pos hep.1, if_neg hdir]
  rcases scan_endpoints_snd post fi (ep.bEndpointAddress : Int) with ⟨_, h⟩ | ⟨e, he, hb, _⟩
  · exact h
  · rw [hpost e he] at hb
    exact Bool.noConfusion hb

/-! ## Lemmas: the outbound payload and the number of inbound transfers -/

theorem send_command_sent (t : Transport) (g : Globals) (cmd response : List Byte)
    (rs : Nat) (res : SendResult) (h : send_command t g cmd response rs = some res) :
    res.sent = snprintf_cr 256 cmd := by
  unfold send_command at h
  simp only [] at h
  split_ifs at h
  · cases h; rfl
  · split at h
    · exact Option.noConfusion h
    · split at h
      · cases h; rfl
      · exact Option.noConfusion h
      · exact Option.noConfusion h

theorem snprintf_cr_short (cmd : List Byte) (h : strlen cmd ≤ 254) :
    snprintf_cr 256 cmd = cstr cmd ++ [13] := by
  unfold snprintf_cr
  unfold strlen at h
  exact List.take_of_length_le (by simp; omega)

/-- Text level: at most five inbound transfers per byte of capacity. -/
theorem abs_loop_reads_le (cap : Nat) (bulk_in : Nat → BulkRead)
    (fuel : Nat) (res : List Byte × Nat × Nat)
    (h : abs_loop cap bulk_in fuel 0 [] 0 = some res) :
    res.2.2 ≤ 5 * cap := by
  refine abs_loop_rule cap bulk_in
    (fun i acc e => (e = 0 ∨ acc.length < cap) ∧ e ≤ 5 ∧ i ≤ 5 * acc.length + e ∧
      acc.length ≤ cap)
    (fun _ _ m => m ≤ 5 * cap) ?_ ?_ fuel 0 [] 0 res ?_ h
  · rintro i acc e ⟨h1, h2, h3, h4⟩ hc
    rcases h1 with h1 | h1
    · omega
    · have : 5 ≤ e := by
        by_contra hlt
        exact hc ⟨h1, by omega⟩
      omega
  · rintro i acc e ⟨h1, h2, h3, h4⟩ hlt he
    apply abs_body_cases cap acc e (bulk_in i)
      (fun b => (b.1 = true → i + 1 ≤ 5 * cap) ∧
        (b.1 = false → ((b.2.2 = 0 ∨ b.2.1.length < cap) ∧ b.2.2 ≤ 5 ∧
          i + 1 ≤ 5 * b.2.1.length + b.2.2 ∧ b.2.1.length ≤ cap)))
    · intro _
      exact ⟨fun hb => Bool.noConfusion hb,
        fun _ => ⟨Or.inr hlt, by simp only []; omega, by simp only []; omega, h4⟩⟩
    · intro _ _
      exact ⟨fun _ => by omega, fun hb => Bool.noConfusion hb⟩
    · intro _ _
      exact ⟨fun hb => Bool.noConfusion hb,
        fun _ => ⟨Or.inr hlt, by simp only []; omega, by simp only []; omega, h4⟩⟩
    · intro _ _ _
      exact ⟨fun _ => by omega, fun hb => Bool.noConfusion hb⟩
    · intro _ hd _
      refine ⟨fun hb => Bool.noConfusion hb, fun _ => ⟨Or.inl rfl, Nat.zero_le _, ?_, ?_⟩⟩
      · simp only [List.length_append, List.length_take]
        omega
      · simp only [List.length_append, List.length_take]
        omega
  · exact ⟨Or.inl rfl, by omega, by simp, by simp⟩

/-! ## Lemmas: `main` of `huawei_at.c` -/

/-- The run of `main` once the command line names a command and `libusb_init` worked. -/
theorem main_after_init (h : Host) (argv : List (List Byte)) (a : Args) (command : List Byte)
    (hparse : parse_args h.strtol16 argv.tail Args.init = some a)
    (hlist : a.list_only = false) (hcmd : a.command = some command)
    (hinit : ¬ h.init_r < 0) :
    main h argv =
      match find_huawei_modem h a.force_pid with
      | none =>
        some { status := 1, stdout := [],
               stderr := [if a.force_pid ≠ 0 then Msg.device_not_found a.force_pid
                          else Msg.no_supported_modem, Msg.device_list] }
      | some (found_pid, dev) =>
        if (find_endpoints dev Globals.init).1 < 0 then
          some { status := 1, stdout := [],
                 stderr := (if a.verbose = true then [Msg.using_device found_pid] else []) ++
                   [Msg.no_endpoints] }
        else
          match send_command h.transport (find_endpoints dev Globals.init).2 command
              h.response MAX_RESPONSE_SIZE with
          | none => none
          | some res =>
            if res.ret > 0 then
              some { status := 0
                     stdout := if a.raw_mode = true then cstr res.response
                               else cleaned_output command res.response
                     stderr := (if a.verbose = true then [Msg.using_device found_pid] else []) ++
                       (if a.verbose = true then
                          [Msg.endpoints (find_endpoints dev Globals.init).2] else []) ++
                       (if h.transport.claim_interface
                            (find_endpoints dev Globals.init).2.claimed_interface < 0 ∧
                          a.verbose = true then
                          [Msg.claim_warning
                            (find_endpoints dev Globals.init).2.claimed_interface
                            (h.transport.claim_interface
                              (find_endpoints dev Globals.init).2.claimed_interface)]
                        else []) }
            else
              some { status := 0, stdout := []
                     stderr := (if a.verbose = true then [Msg.using_device found_pid] else []) ++
                       (if a.verbose = true then
                          [Msg.endpoints (find_endpoints dev Globals.init).2] else []) ++
                       (if h.transport.claim_interface
                            (find_endpoints dev Globals.init).2.claimed_interface < 0 ∧
                          a.verbose = true then
                          [Msg.claim_warning
                            (find_endpoints dev Globals.init).2.claimed_interface
                            (h.transport.claim_interface
                              (find_endpoints dev Globals.init).2.claimed_interface)]
                        else []) ++ [Msg.no_response] } := by
  have h1 : ¬ (a.list_only = false ∧ a.command = none) := by
    rw [hcmd]; rintro ⟨_, hc⟩; exact Option.noConfusion hc
  have h3 : ¬ (a.list_only = false ∧ some command = none) := by
    rintro ⟨_, hc⟩; exact Option.noConfusion hc
  have h2 : ¬ a.list_only = true := by rw [hlist]; exact Bool.noConfusion
  unfold main
  rw [hparse]
  simp only [if_neg h1, if_neg hinit, if_neg h2, hcmd, if_neg h3]

/-- The exit status and the output of `main` once the exchange has run. -/
theorem main_of_exchange (h : Host) (argv : List (List Byte)) (a : Args)
    (command : List Byte) (pid : Nat) (dev : libusb_device) (res : SendResult)
    (hparse : parse_args h.strtol16 argv.tail Args.init = some a)
    (hlist : a.list_only = false) (hcmd : a.command = some command)
    (hinit : ¬ h.init_r < 0)
    (hfound : find_huawei_modem h a.force_pid = some (pid, dev))
    (hep : ¬ (find_endpoints dev Globals.init).1 < 0)
    (hsend : send_command h.transport (find_endpoints dev Globals.init).2 command
      h.response MAX_RESPONSE_SIZE = some res) :
    ∃ out, main h argv = some out ∧ out.status = 0 ∧
      (Msg.no_response ∈ out.stderr ↔ res.ret ≤ 0) ∧
      (0 < res.ret → out.stdout = if a.raw_mode = true then cstr res.response
                                  else cleaned_output command res.response) := by
  rw [main_after_init h argv a command hparse hlist hcmd hinit, hfound]
  simp only [if_neg hep, hsend]
  by_cases hr : res.ret > 0
  · rw [if_pos hr]
    refine ⟨_, rfl, rfl, ?_, fun _ => rfl⟩
    constructor
    · intro hmem
      exfalso
      simp only [List.mem_append] at hmem
      rcases hmem with (hm | hm) | hm <;>
        (split_ifs at hm <;> simp at hm)
    · intro hle; omega
  · rw [if_neg hr]
    refine ⟨_, rfl, rfl, ?_, fun hpos => absurd hpos hr⟩
    exact ⟨fun _ => by omega, fun _ => by simp⟩

/-- Text level: no inbound transfer follows a transport error. -/
theorem abs_loop_error_stops (cap : Nat) (bulk_in : Nat → BulkRead) (n : Nat)
    (herr : is_error_read (bulk_in n) = true)
    (fuel : Nat) (res : List Byte × Nat × Nat)
    (h : abs_loop cap bulk_in fuel 0 [] 0 = some res) :
    res.2.2 ≤ n + 1 := by
  have hne : (bulk_in n).r ≠ LIBUSB_ERROR_TIMEOUT ∧ (bulk_in n).r ≠ 0 := by
    simpa [is_error_read] using herr
  refine abs_loop_rule cap bulk_in (fun i _ _ => i ≤ n) (fun _ _ m => m ≤ n + 1)
    ?_ ?_ fuel 0 [] 0 res ?_ h
  · intro i acc e hi _
    omega
  · intro i acc e hi _ _
    apply abs_body_cases cap acc e (bulk_in i)
      (fun b => (b.1 = true → i + 1 ≤ n + 1) ∧ (b.1 = false → i + 1 ≤ n))
    · intro ht
      refine ⟨fun _ => by omega, fun _ => ?_⟩
      by_contra hcon
      have : i = n := by omega
      rw [this] at ht
      exact hne.1 ht
    · intro _ _
      exact ⟨fun _ => by omega, fun hb => Bool.noConfusion hb⟩
    · intro hr _
      refine ⟨fun _ => by omega, fun _ => ?_⟩
      by_contra hcon
      have : i = n := by omega
      rw [this] at hr
      exact hne.2 hr
    · intro _ _ _
      exact ⟨fun _ => by omega, fun hb => Bool.noConfusion hb⟩
    · intro hr _ _
      refine ⟨fun _ => by omega, fun _ => ?_⟩
      by_contra hcon
      have : i = n := by omega
      rw [this] at hr
      exact hne.2 hr
  · exact Nat.zero_le _

theorem cleaned_output_append_nul (command acc tail : List Byte) :
    cleaned_output command (acc ++ 0 :: tail) = cleaned_output command acc := by
  unfold cleaned_output
  rw [cstr_append_nul]

/-! ## Claims about `send_command` -/

/-- C1, as stated, fails: when five timeouts precede the read that delivers
`"\r\nOK\r\n"`, the byte stream of the six reads contains the terminator, yet
`send_command` (4096-byte buffer) stops after the fifth timeout and returns 0, which is
not a positive count. -/
theorem send_command_ok_after_timeouts_returns_zero :
    MARK_OK <:+: stream (scripted five_timeouts_then_ok).bulk_in 6 ∧
    ∃ res, send_command (scripted five_timeouts_then_ok) Globals.init (bytes "AT")
        (List.replicate MAX_RESPONSE_SIZE 0) MAX_RESPONSE_SIZE = some res ∧
      res.ret = 0 ∧ res.reads = 5 ∧ ¬ (0 < res.ret) := by
  refine ⟨by decide, ?_⟩
  obtain ⟨acc, e, n, hloop, _, heq⟩ :=
    send_command_accepted (scripted five_timeouts_then_ok) Globals.init (bytes "AT")
      (List.replicate MAX_RESPONSE_SIZE 0) MAX_RESPONSE_SIZE (by decide)
      (List.length_replicate _ _) rfl
  have hrun : abs_loop (MAX_RESPONSE_SIZE - 1) (scripted five_timeouts_then_ok).bulk_in
      (5 * (MAX_RESPONSE_SIZE - 1) + 1) 0 [] 0 = some ([], 5, 5) := by decide
  rw [hrun] at hloop
  cases hloop
  exact ⟨_, heq, by decide, rfl, by decide⟩

/-- C1 (amended): let read `n` complete a line-anchored `"\r\nOK\r\n"` in the byte
stream. If the reads `0..n` contain no transport error other than a timeout and no five
consecutive timeout or zero-length reads, and deliver no NUL byte, then `send_command`
(buffer of `2 ≤ response_size ≤ 2 ^ 31` bytes, so that the count fits the returned
`int`; outbound transfer accepted) issues at most `n + 1` inbound transfers and returns
a positive byte count. -/
theorem send_command_stops_at_ok (t : Transport) (g : Globals) (cmd response : List Byte)
    (response_size n : Nat)
    (hsize : 2 ≤ response_size) (hmax : response_size ≤ 2 ^ 31)
    (hbuf : response.length = response_size)
    (hsent : t.bulk_out g.ep_out (snprintf_cr 256 cmd) = 0)
    (hnoerr : ∀ j, j ≤ n → is_error_read (t.bulk_in j) = false)
    (hnoquiet : ∀ k, k + 5 ≤ n + 1 →
      ∃ j, k ≤ j ∧ j < k + 5 ∧ is_empty_read (t.bulk_in j) = false)
    (hnul : ∀ b ∈ stream t.bulk_in (n + 1), b ≠ 0)
    (hok : MARK_OK <:+: stream t.bulk_in (n + 1)) :
    ∃ res, send_command t g cmd response response_size = some res ∧
      res.reads ≤ n + 1 ∧ 0 < res.ret := by
  obtain ⟨acc, e, m, hloop, hle, heq⟩ :=
    send_command_accepted t g cmd response response_size (by omega) hbuf hsent
  have hcore := abs_loop_ok (response_size - 1) (by omega) t.bulk_in n _
    hnoerr hnoquiet hnul hok _ hloop
  refine ⟨_, heq, hcore.1, ?_⟩
  have hpos := hcore.2
  simp only [] at hpos ⊢
  rw [int_cast_of_lt acc.length (by omega)]
  omega

/-- Instance of C1 (amended): the terminator arrives with read 4 of `echo_then_ok`. -/
theorem send_command_stops_at_ok_witness :
    ∃ res, send_command (scripted echo_then_ok) Globals.init (bytes "AT")
        (List.replicate MAX_RESPONSE_SIZE 0) MAX_RESPONSE_SIZE = some res ∧
      res.reads ≤ 4 + 1 ∧ 0 < res.ret :=
  send_command_stops_at_ok (scripted echo_then_ok) Globals.init (bytes "AT")
    (List.replicate MAX_RESPONSE_SIZE 0) MAX_RESPONSE_SIZE 4 (by decide) (by decide)
    (List.length_replicate _ _) rfl (by decide)
    (fun k hk => ⟨2, by omega, by omega, by decide⟩) (by decide) (by decide)

/-- C2: for every `response_size ≥ 1` and every sequence of inbound read results,
`send_command` completes without a store outside the `response_size`-byte buffer and
returns at most `response_size - 1`. After an accepted outbound transfer the number
`total` of bytes it has stored is at most `response_size - 1`: the buffer holds exactly
the first `response_size - 1` bytes (at most) of the received byte stream, followed by a
NUL at index `total`, with every byte after that NUL untouched, and the value returned
is `(int) total`, which is `total` itself for every buffer of at most `2 ^ 31` bytes.
A rejected outbound transfer writes nothing. -/
theorem send_command_within_capacity (t : Transport) (g : Globals)
    (cmd response : List Byte) (response_size : Nat)
    (hsize : 1 ≤ response_size) (hbuf : response.length = response_size) :
    ∃ res, send_command t g cmd response response_size = some res ∧
      res.response.length = response_size ∧
      res.ret ≤ (response_size : Int) - 1 ∧
      (t.bulk_out g.ep_out (snprintf_cr 256 cmd) ≠ 0 →
        res.ret = -1 ∧ res.response = response) ∧
      (t.bulk_out g.ep_out (snprintf_cr 256 cmd) = 0 →
        ∃ total : Nat, total ≤ response_size - 1 ∧
          res.response.take total
            = (stream t.bulk_in res.reads).take (response_size - 1) ∧
          res.response[total]? = some 0 ∧
          res.response.drop (total + 1) = response.drop (total + 1) ∧
          res.ret = int_cast total ∧
          (response_size ≤ 2 ^ 31 → res.ret = (total : Int))) := by
  by_cases hs : t.bulk_out g.ep_out (snprintf_cr 256 cmd) = 0
  · obtain ⟨acc, e, n, hloop, hle, heq⟩ :=
      send_command_accepted t g cmd response response_size hsize hbuf hs
    have hstream := abs_loop_stream _ _ _ _ hloop
    simp only [] at hstream
    refine ⟨_, heq, ?_, ?_, ?_, ?_⟩
    · simp only [List.length_append, List.length_cons, List.length_drop]
      omega
    · simp only []
      have := int_cast_le acc.length
      omega
    · intro hne; exact absurd hs hne
    · intro _
      refine ⟨acc.length, hle, ?_, ?_, ?_, rfl, fun hmax => ?_⟩
      · rw [List.take_left', hstream]
        rfl
      · rw [List.getElem?_append_right (le_refl _)]
        simp
      · rw [List.drop_append_eq_append_drop]
        simp
      · exact int_cast_of_lt acc.length (by omega)
  · refine ⟨_, send_command_rejected t g cmd response response_size hs, hbuf, ?_, ?_, ?_⟩
    · simp only []
      omega
    · intro _; exact ⟨rfl, rfl⟩
    · intro h0; exact absurd h0 hs

/-- Instance of C2 at the 4096-byte buffer of `main`. -/
theorem send_command_within_capacity_witness :
    ∃ res, send_command (scripted echo_then_ok) Globals.init (bytes "AT")
        (List.replicate MAX_RESPONSE_SIZE 0) MAX_RESPONSE_SIZE = some res ∧
      res.response.length = MAX_RESPONSE_SIZE ∧ res.ret ≤ 4095 := by
  obtain ⟨res, h1, h2, h3, _⟩ :=
    send_command_within_capacity (scripted echo_then_ok) Globals.init (bytes "AT")
      (List.replicate MAX_RESPONSE_SIZE 0) MAX_RESPONSE_SIZE (by decide)
      (List.length_replicate _ _)
  exact ⟨res, h1, h2, h3⟩

/-! ## Claims about `find_endpoints` -/

/-- C3: started from the unresolved state (`ep_in = ep_out = -1`) on a device whose
descriptor can be read, `find_endpoints` fails (negative return, `ep_in` and `ep_out`
still `-1`) if and only if no alt-setting of any interface has both a bulk IN and a bulk
OUT endpoint; a failing run leaves all globals unchanged; and a descriptor without any
bulk endpoint fails in both passes (pass 1 returns nothing, pass 2 changes nothing,
the result is `-1`). -/
theorem find_endpoints_fails_iff (dev : libusb_device) (g : Globals)
    (hdesc : 0 ≤ dev.config_r) (hin : g.ep_in = -1) (hout : g.ep_out = -1) :
    (((find_endpoints dev g).1 < 0 ∧ (find_endpoints dev g).2.ep_in = -1 ∧
        (find_endpoints dev g).2.ep_out = -1) ↔
      ∀ s ∈ all_settings dev.config, has_bulk_pair s = false) ∧
    ((find_endpoints dev g).1 < 0 → (find_endpoints dev g).2 = g) ∧
    ((∀ s ∈ all_settings dev.config, ∀ ep ∈ s.endpoint,
        ep.bmAttributes &&& 0x03 ≠ LIBUSB_TRANSFER_TYPE_BULK) →
      first_pass dev.config.interface = none ∧ second_pass dev.config.interface g = g ∧
      find_endpoints dev g = (-1, g)) := by
  have hcond : ¬ (g.ep_in ≥ 0 ∧ g.ep_out ≥ 0) := by rw [hin]; omega
  have hfail : (∀ s ∈ all_settings dev.config, has_bulk_pair s = false) →
      find_endpoints dev g = (-1, g) := by
    intro hno
    rw [(find_endpoints_of_no_pair dev g hdesc hno).2.2, if_neg hcond]
  have hsucc : (find_endpoints dev g).1 < 0 →
      ∀ s ∈ all_settings dev.config, has_bulk_pair s = false := by
    intro hneg s hs
    by_contra hb
    obtain ⟨s1, _, _, heq⟩ := find_endpoints_of_pair dev g hdesc (by rw [hin]; omega)
      ⟨s, hs, by simpa using hb⟩
    rw [heq] at hneg
    simp at hneg
  refine ⟨⟨fun h => hsucc h.1, fun hno => ?_⟩, fun hneg => ?_, fun hnobulk => ?_⟩
  · rw [hfail hno]
    exact ⟨by simp, hin, hout⟩
  · rw [hfail (hsucc hneg)]
  · have hno : ∀ s ∈ all_settings dev.config, has_bulk_pair s = false := by
      intro s hs
      unfold has_bulk_pair
      have : s.endpoint.any is_bulk_in = false := by
        rw [List.any_eq_false]
        intro ep hep
        simp [is_bulk_in, hnobulk s hs ep hep]
      rw [this]
      rfl
    exact ⟨(find_endpoints_of_no_pair dev g hdesc hno).1,
      (find_endpoints_of_no_pair dev g hdesc hno).2.1, hfail hno⟩

/-- Instance of C3: a device with a single interrupt endpoint. -/
theorem find_endpoints_fails_iff_witness :
    first_pass no_bulk_device.config.interface = none ∧
    second_pass no_bulk_device.config.interface Globals.init = Globals.init ∧
    find_endpoints no_bulk_device Globals.init = (-1, Globals.init) :=
  (find_endpoints_fails_iff no_bulk_device Globals.init (by decide) rfl rfl).2.2 (by decide)

/-- C4: whenever some alt-setting of a preferred class (`0x02`, `0x0A`, `0xFF`) has both
a bulk IN and a bulk OUT endpoint, `find_endpoints` returns 0 with the globals of the
first such alt-setting in descriptor order, whatever precedes it (in particular
alt-settings of other classes with a bulk pair) and whatever the globals held before;
`ep_in` and `ep_out` are then addresses of a bulk IN and a bulk OUT endpoint of that
alt-setting and `claimed_interface` is its interface number. -/
theorem find_endpoints_prefers_class (dev : libusb_device) (g : Globals)
    (pre post : List libusb_interface_descriptor) (s : libusb_interface_descriptor)
    (hdesc : 0 ≤ dev.config_r)
    (horder : all_settings dev.config = pre ++ s :: post)
    (hfirst : ∀ s1 ∈ pre, ¬ (preferred_class s1 = true ∧ has_bulk_pair s1 = true))
    (hclass : preferred_class s = true) (hpair : has_bulk_pair s = true) :
    find_endpoints dev g = (0, resolved_to s) ∧
    (∃ ep ∈ s.endpoint, is_bulk_in ep = true ∧
      (find_endpoints dev g).2.ep_in = (ep.bEndpointAddress : Int)) ∧
    (∃ ep ∈ s.endpoint, is_bulk_out ep = true ∧
      (find_endpoints dev g).2.ep_out = (ep.bEndpointAddress : Int)) ∧
    (find_endpoints dev g).2.claimed_interface = (s.bInterfaceNumber : Int) := by
  have h1 := first_pass_settings_first pre post s hfirst hclass hpair
  rw [← horder] at h1
  have heq := find_endpoints_of_first_pass dev g _ hdesc h1
  have hnn := resolved_to_nonneg s hpair
  refine ⟨heq, ?_, ?_, ?_⟩
  · rw [heq]
    rcases scan_endpoints_fst s.endpoint (-1) (-1) with ⟨_, h⟩ | h
    · have := hnn.1
      unfold resolved_to at this
      simp only [] at this
      rw [h] at this
      omega
    · exact h
  · rw [heq]
    rcases scan_endpoints_snd s.endpoint (-1) (-1) with ⟨_, h⟩ | h
    · have := hnn.2
      unfold resolved_to at this
      simp only [] at this
      rw [h] at this
      omega
    · exact h
  · rw [heq]
    rfl

/-- Instance of C4: the vendor-specific interface 1 wins over the mass-storage
interface 0 that precedes it and also has a bulk pair. -/
theorem find_endpoints_prefers_class_witness :
    find_endpoints sample_device Globals.init = (0, ⟨0x83, 0x02, 1⟩) :=
  (find_endpoints_prefers_class sample_device Globals.init
    [{ bInterfaceNumber := 0, bInterfaceClass := 0x08,
       endpoint := [⟨0x81, 0x02⟩, ⟨0x01, 0x02⟩] }] []
    { bInterfaceNumber := 1, bInterfaceClass := 0xFF,
      endpoint := [⟨0x82, 0x03⟩, ⟨0x83, 0x02⟩, ⟨0x02, 0x02⟩] }
    (by decide) (by decide) (by decide) (by decide) (by decide)).1

/-- C5: for every device and every state of the globals, running `find_endpoints` a
second time on the same descriptor, from the state the first run left, gives the same
return value and the same `ep_in`, `ep_out`, `claimed_interface`. -/
theorem find_endpoints_idempotent (dev : libusb_device) (g : Globals) :
    find_endpoints dev (find_endpoints dev g).2 = find_endpoints dev g := by
  by_cases hdesc : 0 ≤ dev.config_r
  · cases hfp : first_pass_settings (all_settings dev.config) with
    | some g1 =>
      rw [find_endpoints_of_first_pass dev g g1 hdesc hfp,
        find_endpoints_of_first_pass dev _ g1 hdesc hfp]
    | none =>
      have hidem : second_pass_settings (all_settings dev.config)
          (second_pass_settings (all_settings dev.config) g)
          = second_pass_settings (all_settings dev.config) g := by
        by_cases hg : 0 ≤ g.ep_in
        · rw [second_pass_settings_set _ g hg, second_pass_settings_set _ g hg]
        · rcases split_at_first has_bulk_pair (all_settings dev.config) with
            hno | ⟨pre, s, post, heq, hpre, hs⟩
          · rw [second_pass_settings_none _ hno, second_pass_settings_none _ hno]
          · rw [heq, second_pass_settings_first pre post s g (by omega) hpre hs]
            exact second_pass_settings_set _ _ (resolved_to_nonneg s hs).1
      rw [find_endpoints_of_second_pass dev g hdesc hfp,
        find_endpoints_of_second_pass dev _ hdesc hfp]
      simp only [hidem]
  · have hneg : dev.config_r < 0 := by omega
    have hfail : ∀ g1 : Globals, find_endpoints dev g1 = (dev.config_r, g1) := by
      intro g1
      unfold find_endpoints
      rw [if_pos hneg]
    rw [hfail g, hfail g]

/-- C6: whenever `find_endpoints` succeeds (does not return a negative value) from a
state with `ep_in` unset, there is one alt-setting of the descriptor with a bulk IN
endpoint whose address is `ep_in` (direction bit `0x80` set) and a bulk OUT endpoint
whose address is `ep_out` (direction bit clear), and `claimed_interface` is that
alt-setting's interface number. -/
theorem find_endpoints_success_pair (dev : libusb_device) (g : Globals)
    (hin : g.ep_in < 0) (hok : ¬ (find_endpoints dev g).1 < 0) :
    ∃ s ∈ all_settings dev.config,
      ∃ ep_i ∈ s.endpoint, ∃ ep_o ∈ s.endpoint,
        (find_endpoints dev g).2.ep_in = (ep_i.bEndpointAddress : Int) ∧
        (find_endpoints dev g).2.ep_out = (ep_o.bEndpointAddress : Int) ∧
        (find_endpoints dev g).2.claimed_interface = (s.bInterfaceNumber : Int) ∧
        ep_i.bmAttributes &&& 0x03 = LIBUSB_TRANSFER_TYPE_BULK ∧
        ep_o.bmAttributes &&& 0x03 = LIBUSB_TRANSFER_TYPE_BULK ∧
        ep_i.bEndpointAddress &&& 0x80 ≠ 0 ∧
        ep_o.bEndpointAddress &&& 0x80 = 0 ∧
        (find_endpoints dev g).2.ep_in.toNat &&& 0x80 ≠ 0 ∧
        (find_endpoints dev g).2.ep_out.toNat &&& 0x80 = 0 := by
  have hdesc : 0 ≤ dev.config_r := by
    by_contra hneg
    apply hok
    unfold find_endpoints
    rw [if_pos (by omega)]
    simp only []
    omega
  have hpair : ∃ s ∈ all_settings dev.config, has_bulk_pair s = true := by
    by_contra hnone
    apply hok
    have hno : ∀ s ∈ all_settings dev.config, has_bulk_pair s = false := by
      intro s hs
      by_contra hb
      exact hnone ⟨s, hs, by simpa using hb⟩
    rw [(find_endpoints_of_no_pair dev g hdesc hno).2.2, if_neg (by omega)]
    simp
  obtain ⟨s, hs, hb, heq⟩ := find_endpoints_of_pair dev g hdesc hin hpair
  have hnn := resolved_to_nonneg s hb
  unfold resolved_to at hnn
  simp only [] at hnn
  have hi : ∃ ep ∈ s.endpoint, is_bulk_in ep = true ∧
      (scan_endpoints s.endpoint (-1, -1)).1 = (ep.bEndpointAddress : Int) := by
    rcases scan_endpoints_fst s.endpoint (-1) (-1) with ⟨_, h⟩ | h
    · rw [h] at hnn; omega
    · exact h
  have ho : ∃ ep ∈ s.endpoint, is_bulk_out ep = true ∧
      (scan_endpoints s.endpoint (-1, -1)).2 = (ep.bEndpointAddress : Int) := by
    rcases scan_endpoints_snd s.endpoint (-1) (-1) with ⟨_, h⟩ | h
    · rw [h] at hnn; omega
    · exact h
  obtain ⟨ep_i, hmi, hbi, hei⟩ := hi
  obtain ⟨ep_o, hmo, hbo, heo⟩ := ho
  simp only [is_bulk_in, Bool.and_eq_true, decide_eq_true_eq] at hbi
  simp only [is_bulk_out, Bool.and_eq_true, decide_eq_true_eq] at hbo
  refine ⟨s, hs, ep_i, hmi, ep_o, hmo, ?_, ?_, ?_, hbi.1, hbo.1, hbi.2, hbo.2, ?_, ?_⟩
  · rw [heq]; exact hei
  · rw [heq]; exact heo
  · rw [heq]; rfl
  · rw [heq]
    show (scan_endpoints s.endpoint (-1, -1)).1.toNat &&& 0x80 ≠ 0
    rw [hei, Int.toNat_ofNat]
    exact hbi.2
  · rw [heq]
    show (scan_endpoints s.endpoint (-1, -1)).2.toNat &&& 0x80 = 0
    rw [heo, Int.toNat_ofNat]
    exact hbo.2

/-- Instance of C6 on the storage-only device. -/
theorem find_endpoints_success_pair_witness :
    ∃ s ∈ all_settings storage_device.config,
      ∃ ep_i ∈ s.endpoint, ∃ ep_o ∈ s.endpoint,
        (find_endpoints storage_device Globals.init).2.ep_in = (ep_i.bEndpointAddress : Int) ∧
        (find_endpoints storage_device Globals.init).2.ep_out = (ep_o.bEndpointAddress : Int) ∧
        (find_endpoints storage_device Globals.init).2.claimed_interface
          = (s.bInterfaceNumber : Int) := by
  obtain ⟨s, hs, ep_i, hi, ep_o, ho, h1, h2, h3, _⟩ :=
    find_endpoints_success_pair storage_device Globals.init (by decide) (by decide)
  exact ⟨s, hs, ep_i, hi, ep_o, ho, h1, h2, h3⟩

/-! ## Claims about `switch_device` -/

/-- C7 fails on the code: `switch_device` does not check the return code of
`libusb_get_active_config_descriptor` before its descriptor dump. For a device in
unconfigured state (the call returns `LIBUSB_ERROR_NOT_FOUND`) it reads the
uninitialised `config`, whatever the transport answers, and no call trace results:
neither the set-feature control request nor the set-configuration request nor the
device reset is attempted. The other reads of that descriptor, in
`find_bulk_out_endpoint` and in `find_endpoints`, check the return code and give a
negative result on the same device. -/
theorem switch_device_unconfigured_skips_control :
    (∀ t : Transport, switch_device t unconfigured_device = none) ∧
    (∀ t : Transport, ¬ ∃ ret trace, switch_device t unconfigured_device = some (ret, trace) ∧
      UsbOp.reset_device ∈ trace) ∧
    (find_bulk_out_endpoint unconfigured_device 0).1 = -1 ∧
    (find_endpoints unconfigured_device Globals.init).1 = LIBUSB_ERROR_NOT_FOUND := by
  have hnone : ∀ t : Transport, switch_device t unconfigured_device = none := by
    intro t
    unfold switch_device
    rw [if_pos (by decide)]
  refine ⟨hnone, fun t => ?_, by decide, by decide⟩
  rintro ⟨ret, trace, hsome, _⟩
  rw [hnone t] at hsome
  exact Option.noConfusion hsome

/-- Whenever the active configuration descriptor can be read (`0 ≤ dev.config_r`), for
every outcome of endpoint resolution, kernel-driver detach, interface claim and bulk
transfers (any transport `t`), the calls issued by `switch_device` end with the
set-feature control request, the set-configuration request and the device reset, in
this order, and none of these three kinds of call occurs earlier. -/
theorem switch_device_ends_with_control (t : Transport) (dev : libusb_device)
    (hdesc : 0 ≤ dev.config_r) :
    ∃ ret before, switch_device t dev =
        some (ret, before ++
          [UsbOp.control_transfer 0x00 LIBUSB_REQUEST_SET_FEATURE 0x0001 0x0000 1000,
           UsbOp.set_configuration 1, UsbOp.reset_device]) ∧
      ∀ op ∈ before, is_control_op op = false := by
  have hctl : (try_control_transfer t).2 =
      [UsbOp.control_transfer 0x00 LIBUSB_REQUEST_SET_FEATURE 0x0001 0x0000 1000,
       UsbOp.set_configuration 1, UsbOp.reset_device] := by
    unfold try_control_transfer
    split_ifs <;> rfl
  unfold switch_device
  rw [if_neg (by omega)]
  simp only [hctl]
  refine ⟨_, _, rfl, ?_⟩
  intro op hop
  simp only [List.mem_append, List.mem_singleton] at hop
  rcases hop with (hop | hop) | hop
  · exact (detach_kernel_drivers_ops t 8 0 op hop).1
  · rw [hop]; rfl
  · split_ifs at hop
    · simp at hop
    · simp only [try_bulk_transfer, List.mem_append, List.mem_singleton] at hop
      rcases hop with ((((hop | hop) | hop) | hop) | hop) | hop <;> (rw [hop]; rfl)
    · simp only [List.mem_append, List.mem_singleton] at hop
      rcases hop with hop | hop
      · exact (probe_common_endpoints_ops t _ op hop).1
      · rw [hop]; rfl

/-- With a readable descriptor and a transport on which every call fails, the three
control-level calls still close the trace. -/
theorem switch_device_ends_with_control_witness :
    ∃ ret before, switch_device failing_transport storage_device =
        some (ret, before ++
          [UsbOp.control_transfer 0x00 LIBUSB_REQUEST_SET_FEATURE 0x0001 0x0000 1000,
           UsbOp.set_configuration 1, UsbOp.reset_device]) ∧
      ∀ op ∈ before, is_control_op op = false :=
  switch_device_ends_with_control failing_transport storage_device (by decide)

/-- C10: when `find_bulk_out_endpoint` resolves no bulk OUT endpoint and the interface
claim succeeds, the outbound bulk transfers issued by `switch_device` are exactly the
first switch payload sent (timeout 1000 ms) to a non-empty prefix of the addresses
`0x01, 0x02, 0x03, 0x04, 0x05`, in that order: every address before the last tried one
rejected the transfer, and the last tried one accepted it, unless all five were tried
and all five rejected. -/
theorem switch_device_probes_common_endpoints (t : Transport) (dev : libusb_device)
    (hdesc : 0 ≤ dev.config_r)
    (hnone : (find_bulk_out_endpoint dev 0).1 < 0)
    (hclaim : ¬ t.claim_interface (find_bulk_out_endpoint dev 0).2 < 0) :
    ∃ ret trace tried, switch_device t dev = some (ret, trace) ∧
      trace.filter is_bulk_out_op =
        tried.map (fun a => UsbOp.bulk_out a huawei_switch_msg 1000) ∧
      tried <+: [0x01, 0x02, 0x03, 0x04, 0x05] ∧ tried ≠ [] ∧
      (∀ a ∈ tried.dropLast, t.bulk_out a huawei_switch_msg ≠ 0) ∧
      ((∃ a, tried.getLast? = some a ∧ t.bulk_out a huawei_switch_msg = 0) ∨
       (tried = [0x01, 0x02, 0x03, 0x04, 0x05] ∧
        ∀ a ∈ tried, t.bulk_out a huawei_switch_msg ≠ 0)) := by
  obtain ⟨tried, hprobe, hrest⟩ := probe_common_endpoints_prefix t
  have hctl : (try_control_transfer t).2.filter is_bulk_out_op = [] := by
    unfold try_control_transfer
    split_ifs <;> rfl
  have hdet : (detach_kernel_drivers t 8 0).filter is_bulk_out_op = [] :=
    filter_eq_nil_of_forall _ _ (fun op hop => (detach_kernel_drivers_ops t 8 0 op hop).2)
  have hpr : (probe_common_endpoints t [0x01, 0x02, 0x03, 0x04, 0x05]).filter is_bulk_out_op
      = probe_common_endpoints t [0x01, 0x02, 0x03, 0x04, 0x05] :=
    filter_eq_self_of_forall _ _ (fun op hop => (probe_common_endpoints_ops t _ op hop).2)
  refine ⟨_, _, tried, switch_device_eq t dev hdesc, ?_, hrest⟩
  simp only [if_neg hclaim, if_neg (not_le.mpr hnone), List.filter_append, hctl, hdet, hpr,
    hprobe, ge_iff_le]
  simp [is_bulk_out_op]

/-- Instance of C10: no bulk endpoint in the descriptor, address `0x03` is the first
to accept, so exactly `0x01, 0x02, 0x03` are tried. -/
theorem switch_device_probes_common_endpoints_witness :
    ∃ ret trace, switch_device accepts_on_three no_bulk_device = some (ret, trace) ∧
      trace.filter is_bulk_out_op =
        [UsbOp.bulk_out 0x01 huawei_switch_msg 1000, UsbOp.bulk_out 0x02 huawei_switch_msg 1000,
         UsbOp.bulk_out 0x03 huawei_switch_msg 1000] := by
  obtain ⟨ret, trace, tried, h1, _, _⟩ :=
    switch_device_probes_common_endpoints accepts_on_three no_bulk_device
      (by decide) (by decide) (by decide)
  exact ⟨ret, trace, h1, by
    have h2 : switch_device accepts_on_three no_bulk_device = some (ret, trace) := h1
    have h3 : switch_device accepts_on_three no_bulk_device =
        some (1, [UsbOp.kernel_driver_active 0, UsbOp.detach_kernel_driver 0,
          UsbOp.kernel_driver_active 1, UsbOp.kernel_driver_active 2,
          UsbOp.kernel_driver_active 3, UsbOp.kernel_driver_active 4,
          UsbOp.kernel_driver_active 5, UsbOp.kernel_driver_active 6,
          UsbOp.kernel_driver_active 7, UsbOp.claim_interface 0,
          UsbOp.bulk_out 0x01 huawei_switch_msg 1000, UsbOp.bulk_out 0x02 huawei_switch_msg 1000,
          UsbOp.bulk_out 0x03 huawei_switch_msg 1000, UsbOp.release_interface 0,
          UsbOp.control_transfer 0x00 LIBUSB_REQUEST_SET_FEATURE 0x0001 0x0000 1000,
          UsbOp.set_configuration 1, UsbOp.reset_device]) := by decide
    rw [h3] at h2
    cases h2
    decide⟩

/-! ## Claims about the product identifier tables -/

/-- C12: each of `supported_pids`, `zerocd_pids` and `modem_pids` consists of pairwise
distinct non-zero identifiers followed by the single terminator 0. -/
theorem catalog_tables_distinct :
    ((entries supported_pids).Nodup ∧ (∀ p ∈ entries supported_pids, p ≠ 0) ∧
      supported_pids = entries supported_pids ++ [0]) ∧
    ((entries zerocd_pids).Nodup ∧ (∀ p ∈ entries zerocd_pids, p ≠ 0) ∧
      zerocd_pids = entries zerocd_pids ++ [0]) ∧
    ((entries modem_pids).Nodup ∧ (∀ p ∈ entries modem_pids, p ≠ 0) ∧
      modem_pids = entries modem_pids ++ [0]) := by
  decide

/-- C13: for every product identifier the mode printed by `scan_huawei_devices` is
`" [ZeroCD/Storage]"` (PreModem) exactly for the entries of `zerocd_pids`,
`" [Modem Mode]"` (Modem) exactly for the entries of `modem_pids`, and empty (Unknown)
exactly for all others; no identifier is an entry of both tables; `0x1506` is a Modem
whose `get_pid_name` label contains `"E303"`, and `0x1446` is a PreModem. -/
theorem device_mode_by_table :
    (∀ pid, device_mode pid = " [ZeroCD/Storage]" ↔ pid ∈ entries zerocd_pids) ∧
    (∀ pid, device_mode pid = " [Modem Mode]" ↔ pid ∈ entries modem_pids) ∧
    (∀ pid, device_mode pid = "" ↔ (pid ∉ entries zerocd_pids ∧ pid ∉ entries modem_pids)) ∧
    (∀ pid, ¬ (pid ∈ entries zerocd_pids ∧ pid ∈ entries modem_pids)) ∧
    device_mode 0x1506 = " [Modem Mode]" ∧
    "E303".toList <:+: (get_pid_name 0x1506).toList ∧
    device_mode 0x1446 = " [ZeroCD/Storage]" := by
  have hdisj : ∀ pid, ¬ (pid ∈ entries zerocd_pids ∧ pid ∈ entries modem_pids) := by
    have h : ∀ p ∈ entries zerocd_pids, p ∉ entries modem_pids := by decide
    intro pid hp
    exact h pid hp.1 hp.2
  have hz := fun pid => pid_loop_ne_zero_iff zerocd_pids pid
  have hm := fun pid => pid_loop_ne_zero_iff modem_pids pid
  refine ⟨fun pid => ?_, fun pid => ?_, fun pid => ?_, hdisj, by decide, by decide, by decide⟩
  · unfold device_mode is_zerocd_pid is_modem_pid
    by_cases h1 : pid_loop zerocd_pids pid ≠ 0
    · rw [if_pos h1]
      exact ⟨fun _ => (hz pid).mp h1, fun _ => rfl⟩
    · rw [if_neg h1]
      have hnot : pid ∉ entries zerocd_pids := fun h => h1 ((hz pid).mpr h)
      constructor
      · intro h
        exfalso
        split_ifs at h
        · exact absurd h (by decide)
        · exact absurd h (by decide)
      · intro h; exact absurd h hnot
  · unfold device_mode is_zerocd_pid is_modem_pid
    by_cases h1 : pid_loop zerocd_pids pid ≠ 0
    · rw [if_pos h1]
      constructor
      · intro h; exact absurd h (by decide)
      · intro h; exact absurd ⟨(hz pid).mp h1, h⟩ (hdisj pid)
    · rw [if_neg h1]
      by_cases h2 : pid_loop modem_pids pid ≠ 0
      · rw [if_pos h2]
        exact ⟨fun _ => (hm pid).mp h2, fun _ => rfl⟩
      · rw [if_neg h2]
        constructor
        · intro h; exact absurd h (by decide)
        · intro h; exact absurd ((hm pid).mpr h) h2
  · unfold device_mode is_zerocd_pid is_modem_pid
    by_cases h1 : pid_loop zerocd_pids pid ≠ 0
    · rw [if_pos h1]
      constructor
      · intro h; exact absurd h (by decide)
      · intro h; exact absurd ((hz pid).mp h1) h.1
    · rw [if_neg h1]
      by_cases h2 : pid_loop modem_pids pid ≠ 0
      · rw [if_pos h2]
        constructor
        · intro h; exact absurd h (by decide)
        · intro h; exact absurd ((hm pid).mp h2) h.2
      · rw [if_neg h2]
        exact ⟨fun _ => ⟨fun h => h1 ((hz pid).mpr h), fun h => h2 ((hm pid).mpr h)⟩,
          fun _ => rfl⟩

/-! ## Claims about the endpoint recorded within an alt-setting -/

/-- C14, as stated, fails: on an alt-setting with the bulk endpoints `0x81`, `0x01`,
`0x82`, `0x02` (in this order) `find_endpoints` resolves to `0x82`/`0x02`, while the
earliest bulk IN endpoint is `0x81` and the earliest bulk OUT endpoint is `0x01`. -/
theorem find_endpoints_not_first_endpoint :
    find_endpoints two_pair_device Globals.init = (0, ⟨0x82, 0x02, 0⟩) ∧
    (∀ s ∈ all_settings two_pair_device.config,
      s.endpoint.find? is_bulk_in = some ⟨0x81, 0x02⟩ ∧
      s.endpoint.find? is_bulk_out = some ⟨0x01, 0x02⟩) ∧
    (find_endpoints two_pair_device Globals.init).2.ep_in ≠ 0x81 ∧
    (find_endpoints two_pair_device Globals.init).2.ep_out ≠ 0x01 := by
  decide

/-- C14 (amended): whenever `find_endpoints` succeeds from a state with `ep_in` unset,
the alt-setting it resolves to has `ep_in` equal to the address of its last bulk IN
endpoint in endpoint order and `ep_out` equal to the address of its last bulk OUT
endpoint: no bulk IN (resp. OUT) endpoint follows the recorded one. -/
theorem find_endpoints_records_last (dev : libusb_device) (g : Globals)
    (hin : g.ep_in < 0) (hok : ¬ (find_endpoints dev g).1 < 0) :
    ∃ s ∈ all_settings dev.config,
      (find_endpoints dev g).2.claimed_interface = (s.bInterfaceNumber : Int) ∧
      (∃ pre ep post, s.endpoint = pre ++ ep :: post ∧ is_bulk_in ep = true ∧
        (∀ e ∈ post, is_bulk_in e = false) ∧
        (find_endpoints dev g).2.ep_in = (ep.bEndpointAddress : Int)) ∧
      (∃ pre ep post, s.endpoint = pre ++ ep :: post ∧ is_bulk_out ep = true ∧
        (∀ e ∈ post, is_bulk_out e = false) ∧
        (find_endpoints dev g).2.ep_out = (ep.bEndpointAddress : Int)) := by
  have hdesc : 0 ≤ dev.config_r := by
    by_contra hneg
    apply hok
    unfold find_endpoints
    rw [if_pos (by omega)]
    simp only []
    omega
  have hpair : ∃ s ∈ all_settings dev.config, has_bulk_pair s = true := by
    by_contra hnone
    apply hok
    have hno : ∀ s ∈ all_settings dev.config, has_bulk_pair s = false := by
      intro s hs
      by_contra hb
      exact hnone ⟨s, hs, by simpa using hb⟩
    rw [(find_endpoints_of_no_pair dev g hdesc hno).2.2, if_neg (by omega)]
    simp
  obtain ⟨s, hs, hb, heq⟩ := find_endpoints_of_pair dev g hdesc hin hpair
  have hb2 := hb
  unfold has_bulk_pair at hb2
  rw [Bool.and_eq_true, List.any_eq_true, List.any_eq_true] at hb2
  obtain ⟨⟨e1, hm1, hb1⟩, ⟨e2, hm2, hbo2⟩⟩ := hb2
  refine ⟨s, hs, by rw [heq]; rfl, ?_, ?_⟩
  · rcases split_at_last is_bulk_in s.endpoint with hno | ⟨pre, ep, post, hsplit, hep, hpost⟩
    · rw [hno e1 hm1] at hb1; exact Bool.noConfusion hb1
    · refine ⟨pre, ep, post, hsplit, hep, hpost, ?_⟩
      rw [heq]
      show (scan_endpoints s.endpoint (-1, -1)).1 = _
      rw [hsplit]
      exact scan_endpoints_last_in pre post ep _ hep hpost
  · rcases split_at_last is_bulk_out s.endpoint with hno | ⟨pre, ep, post, hsplit, hep, hpost⟩
    · rw [hno e2 hm2] at hbo2; exact Bool.noConfusion hbo2
    · refine ⟨pre, ep, post, hsplit, hep, hpost, ?_⟩
      rw [heq]
      show (scan_endpoints s.endpoint (-1, -1)).2 = _
      rw [hsplit]
      exact scan_endpoints_last_out pre post ep _ hep hpost

/-- Instance of C14 (amended) on the device with two bulk pairs. -/
theorem find_endpoints_records_last_witness :
    ∃ s ∈ all_settings two_pair_device.config,
      (find_endpoints two_pair_device Globals.init).2.claimed_interface
        = (s.bInterfaceNumber : Int) ∧
      (∃ pre ep post, s.endpoint = pre ++ ep :: post ∧ is_bulk_in ep = true ∧
        (∀ e ∈ post, is_bulk_in e = false) ∧
        (find_endpoints two_pair_device Globals.init).2.ep_in = (ep.bEndpointAddress : Int)) ∧
      (∃ pre ep post, s.endpoint = pre ++ ep :: post ∧ is_bulk_out ep = true ∧
        (∀ e ∈ post, is_bulk_out e = false) ∧
        (find_endpoints two_pair_device Globals.init).2.ep_out = (ep.bEndpointAddress : Int)) :=
  find_endpoints_records_last two_pair_device Globals.init (by decide) (by decide)

/-! ## Claims about the outbound payload and the transfer count -/

/-- C15, as stated, fails: for the command of 255 letters `A` the outbound transfer
carries those 255 letters and no carriage return, not the command followed by `0x0D`. -/
theorem send_command_long_command_loses_cr :
    ∃ res, send_command (scripted []) Globals.init long_command
        (List.replicate MAX_RESPONSE_SIZE 0) MAX_RESPONSE_SIZE = some res ∧
      res.sent = long_command ∧ 13 ∉ res.sent ∧ res.sent ≠ long_command ++ [13] := by
  obtain ⟨acc, e, n, _, _, heq⟩ :=
    send_command_accepted (scripted []) Globals.init long_command
      (List.replicate MAX_RESPONSE_SIZE 0) MAX_RESPONSE_SIZE (by decide)
      (List.length_replicate _ _) rfl
  have hcstr : cstr long_command = long_command :=
    cstr_of_nul_free _ (fun b hb => by
      rw [long_command, List.mem_replicate] at hb
      rw [hb.2]; decide)
  have hl : long_command.length = 255 := List.length_replicate _ _
  have hsent : snprintf_cr 256 long_command = long_command := by
    unfold snprintf_cr
    rw [hcstr, List.take_append_of_le_length (by rw [hl])]
    exact List.take_of_length_le (by rw [hl])
  refine ⟨_, heq, hsent, ?_, ?_⟩
  · simp only [hsent]
    intro h
    rw [long_command, List.mem_replicate] at h
    exact absurd h.2 (by decide)
  · simp only [hsent]
    intro h
    have := congrArg List.length h
    rw [List.length_append, hl] at this
    exact absurd this (by decide)

/-- C15 (amended): for every command string of at most 254 bytes, the single outbound
bulk transfer issued by `send_command` carries exactly the bytes of the command (its C
string, which is the whole of `cmd` when `cmd` holds no NUL) followed by one carriage
return `0x0D`. -/
theorem send_command_sends_command_cr (t : Transport) (g : Globals)
    (cmd response : List Byte) (response_size : Nat)
    (hsize : 1 ≤ response_size) (hbuf : response.length = response_size)
    (hlen : strlen cmd ≤ 254) :
    ∃ res, send_command t g cmd response response_size = some res ∧
      res.sent = cstr cmd ++ [13] ∧
      ((∀ b ∈ cmd, b ≠ 0) → res.sent = cmd ++ [13]) := by
  have hex : ∃ res, send_command t g cmd response response_size = some res := by
    by_cases hs : t.bulk_out g.ep_out (snprintf_cr 256 cmd) = 0
    · obtain ⟨acc, e, n, _, _, heq⟩ :=
        send_command_accepted t g cmd response response_size hsize hbuf hs
      exact ⟨_, heq⟩
    · exact ⟨_, send_command_rejected t g cmd response response_size hs⟩
  obtain ⟨res, hres⟩ := hex
  have hsent := send_command_sent t g cmd response response_size res hres
  rw [snprintf_cr_short cmd hlen] at hsent
  refine ⟨res, hres, hsent, fun hnul => ?_⟩
  rw [hsent, cstr_of_nul_free cmd hnul]

/-- Instance of C15 (amended): the command `AT+CPIN?`. -/
theorem send_command_sends_command_cr_witness :
    ∃ res, send_command (scripted []) Globals.init (bytes "AT+CPIN?")
        (List.replicate MAX_RESPONSE_SIZE 0) MAX_RESPONSE_SIZE = some res ∧
      res.sent = bytes "AT+CPIN?\r" := by
  obtain ⟨res, h1, h2, _⟩ :=
    send_command_sends_command_cr (scripted []) Globals.init (bytes "AT+CPIN?")
      (List.replicate MAX_RESPONSE_SIZE 0) MAX_RESPONSE_SIZE (by decide)
      (List.length_replicate _ _) (by decide)
  exact ⟨res, h1, by rw [h2]; decide⟩

/-- C17: for every `response_size ≥ 1` and every sequence of inbound read outcomes
(timeouts, errors, empty and non-empty reads in any order), `send_command` completes
after at most `5 * (response_size - 1)` inbound transfers; the read loop itself, started
on a buffer whose first byte is the NUL stored by `response[0] = 0`, stops within that
many transfers for every iteration budget of at least `read_fuel response_size`. -/
theorem read_loop_transfer_bound (t : Transport) (g : Globals) (cmd response : List Byte)
    (response_size : Nat) (hsize : 1 ≤ response_size)
    (hbuf : response.length = response_size) :
    (∃ res, send_command t g cmd response response_size = some res ∧
      res.reads ≤ 5 * (response_size - 1)) ∧
    (∀ (tail : List Byte) (fuel : Nat), tail.length + 1 = response_size →
      read_fuel response_size ≤ fuel →
      ∃ st n, read_loop response_size t.bulk_in fuel 0
          { response := 0 :: tail, total_read := 0, empty_reads := 0 } = .done st n ∧
        n ≤ 5 * (response_size - 1)) := by
  constructor
  · by_cases hs : t.bulk_out g.ep_out (snprintf_cr 256 cmd) = 0
    · obtain ⟨acc, e, n, hloop, _, heq⟩ :=
        send_command_accepted t g cmd response response_size hsize hbuf hs
      exact ⟨_, heq, abs_loop_reads_le _ _ _ _ hloop⟩
    · exact ⟨_, send_command_rejected t g cmd response response_size hs, Nat.zero_le _⟩
  · intro tail fuel htail hfuel
    have hf : read_fuel response_size = 5 * (response_size - 1) + 1 := by
      unfold read_fuel; rw [size_sub_eq response_size 1 hsize]
    obtain ⟨res, hres⟩ := abs_loop_terminates (response_size - 1) t.bulk_in fuel 0 [] 0
      (by simp only [List.length_nil]; omega)
    have hsim := read_loop_sim response_size hsize t.bulk_in fuel 0 [] tail 0
      (by simp only [List.length_nil]; omega)
    rw [hres] at hsim
    simp only [List.nil_append, List.length_nil] at hsim
    exact ⟨_, _, hsim, abs_loop_reads_le _ _ _ _ hres⟩

/-- Instance of C17: the 4096-byte buffer of `main` and a silent device. -/
theorem read_loop_transfer_bound_witness :
    ∃ res, send_command (scripted []) Globals.init (bytes "AT")
        (List.replicate MAX_RESPONSE_SIZE 0) MAX_RESPONSE_SIZE = some res ∧
      res.reads ≤ 5 * (MAX_RESPONSE_SIZE - 1) :=
  (read_loop_transfer_bound (scripted []) Globals.init (bytes "AT")
    (List.replicate MAX_RESPONSE_SIZE 0) MAX_RESPONSE_SIZE (by decide)
    (List.length_replicate _ _)).1

/-! ## Claims about `main` of `huawei_at.c` -/

/-- C16, as stated, fails: when the echo `"AT\r"` arrives and the next transfer fails
with `LIBUSB_ERROR_IO`, `send_command` returns 3 (not a value `≤ 0`) after two inbound
transfers, and `main` prints `"AT\r\n"` instead of reporting "No response". -/
theorem main_error_after_data_prints_response :
    is_error_read ((sample_host echo_then_error).transport.bulk_in 1) = true ∧
    ∃ res out,
      send_command (sample_host echo_then_error).transport
        (find_endpoints sample_device Globals.init).2 (bytes "AT")
        (sample_host echo_then_error).response MAX_RESPONSE_SIZE = some res ∧
      res.ret = 3 ∧ ¬ res.ret ≤ 0 ∧ res.reads = 2 ∧
      main (sample_host echo_then_error) at_argv = some out ∧
      Msg.no_response ∉ out.stderr ∧ out.stdout = bytes "AT\r\n" := by
  refine ⟨by decide, ?_⟩
  obtain ⟨acc, e, n, hloop, _, heq⟩ :=
    send_command_accepted (sample_host echo_then_error).transport
      (find_endpoints sample_device Globals.init).2 (bytes "AT")
      (sample_host echo_then_error).response MAX_RESPONSE_SIZE (by decide)
      (List.length_replicate _ _) rfl
  have hrun : abs_loop (MAX_RESPONSE_SIZE - 1) (sample_host echo_then_error).transport.bulk_in
      (5 * (MAX_RESPONSE_SIZE - 1) + 1) 0 [] 0 = some (bytes "AT\r", 0, 2) := by decide
  rw [hrun] at hloop
  cases hloop
  obtain ⟨out, hmain, _, hmsg, hstdout⟩ :=
    main_of_exchange (sample_host echo_then_error) at_argv at_args (bytes "AT") 0x1506
      sample_device _ (by decide) rfl rfl (by decide) (by decide) (by decide) heq
  refine ⟨_, out, heq, by decide, by decide, rfl, hmain, ?_, ?_⟩
  · intro hmem
    exact absurd (hmsg.mp hmem) (by decide)
  · rw [hstdout (by decide)]
    simp only [at_args, Bool.false_eq_true, if_false]
    rw [cleaned_output_append_nul]
    decide

/-- C16 (amended): a non-timeout transport error on inbound transfer `n` ends the
exchange, no inbound transfer follows it; `send_command` returns the number of bytes
accumulated so far (the received stream cut at the capacity), and `main` exits with
status 0 and reports "No response" exactly when that number is 0, in particular when
nothing was received before the error. -/
theorem main_after_read_error (h : Host) (argv : List (List Byte)) (a : Args)
    (command : List Byte) (pid : Nat) (dev : libusb_device) (n : Nat)
    (hparse : parse_args h.strtol16 argv.tail Args.init = some a)
    (hlist : a.list_only = false) (hcmd : a.command = some command)
    (hinit : ¬ h.init_r < 0) (hbuf : h.response.length = MAX_RESPONSE_SIZE)
    (hfound : find_huawei_modem h a.force_pid = some (pid, dev))
    (hep : ¬ (find_endpoints dev Globals.init).1 < 0)
    (hsent : h.transport.bulk_out (find_endpoints dev Globals.init).2.ep_out
      (snprintf_cr 256 command) = 0)
    (herr : is_error_read (h.transport.bulk_in n) = true) :
    ∃ res out,
      send_command h.transport (find_endpoints dev Globals.init).2 command h.response
        MAX_RESPONSE_SIZE = some res ∧
      main h argv = some out ∧
      res.reads ≤ n + 1 ∧
      res.ret = (((stream h.transport.bulk_in res.reads).take
        (MAX_RESPONSE_SIZE - 1)).length : Nat) ∧
      out.status = 0 ∧
      (Msg.no_response ∈ out.stderr ↔ res.ret = 0) ∧
      (stream h.transport.bulk_in n = [] → res.ret = 0 ∧ Msg.no_response ∈ out.stderr) := by
  obtain ⟨acc, e, m, hloop, hle, heq⟩ :=
    send_command_accepted h.transport (find_endpoints dev Globals.init).2 command
      h.response MAX_RESPONSE_SIZE (by decide) hbuf hsent
  have hcap : MAX_RESPONSE_SIZE - 1 = 4095 := by decide
  rw [int_cast_of_lt acc.length (by omega)] at heq
  have hstop := abs_loop_error_stops _ _ n herr _ _ hloop
  have hstream := abs_loop_stream _ _ _ _ hloop
  simp only [] at hstop hstream
  obtain ⟨out, hout, hstatus, hmsg, _⟩ :=
    main_of_exchange h argv a command pid dev _ hparse hlist hcmd hinit hfound hep heq
  simp only [] at hmsg
  have hiff : Msg.no_response ∈ out.stderr ↔ ((acc.length : Nat) : Int) = 0 := by
    rw [hmsg]
    constructor
    · intro hle; omega
    · intro hz; omega
  refine ⟨_, out, heq, hout, hstop, ?_, hstatus, hiff, fun hnil => ?_⟩
  · simp only []
    rw [← hstream]
  · have hne : (h.transport.bulk_in n).r ≠ 0 := by
      have : (h.transport.bulk_in n).r ≠ LIBUSB_ERROR_TIMEOUT ∧ (h.transport.bulk_in n).r ≠ 0 := by
        simpa [is_error_read] using herr
      exact this.2
    have hpre : stream h.transport.bulk_in m = [] := by
      by_cases hm : m ≤ n
      · have hmono : ∀ k, stream h.transport.bulk_in (m + k) = [] →
            stream h.transport.bulk_in m = [] := by
          intro k
          induction k with
          | zero => intro hk; exact hk
          | succ k ih =>
            intro hk
            rw [← Nat.add_assoc, stream] at hk
            exact ih (List.append_eq_nil.mp hk).1
        exact hmono (n - m) (by rw [Nat.add_sub_cancel' hm]; exact hnil)
      · have hmn : m = n + 1 := by omega
        rw [hmn, stream_succ_of_ne _ _ hne]
        exact hnil
    have hacc : acc = [] := by rw [hstream, hpre]; exact List.take_nil
    have hz : ((acc.length : Nat) : Int) = 0 := by rw [hacc]; rfl
    exact ⟨hz, hiff.mpr hz⟩

/-- Instance of C16 (amended): the first inbound transfer fails, nothing was received. -/
theorem main_after_read_error_witness :
    ∃ res out,
      send_command (sample_host [⟨-1, []⟩]).transport
        (find_endpoints sample_device Globals.init).2 (bytes "AT")
        (sample_host [⟨-1, []⟩]).response MAX_RESPONSE_SIZE = some res ∧
      main (sample_host [⟨-1, []⟩]) at_argv = some out ∧
      res.reads ≤ 0 + 1 ∧ out.status = 0 ∧ res.ret = 0 ∧ Msg.no_response ∈ out.stderr := by
  obtain ⟨res, out, h1, h2, h3, _, h5, _, h7⟩ :=
    main_after_read_error (sample_host [⟨-1, []⟩]) at_argv at_args (bytes "AT") 0x1506
      sample_device 0 (by decide) rfl rfl (by decide) (List.length_replicate _ _)
      (by decide) (by decide) rfl (by decide)
  exact ⟨res, out, h1, h2, h3, h5, (h7 rfl).1, (h7 rfl).2⟩

end Huawei
